import Mathlib

/-!
Verification of the persistent-heap core of the nvml prototype.

This file gives a shallow embedding, in Lean 4, of the parts of the
allocator that the specification talks about:

 * the packed 64-bit container key of bucket.c (CHUNK_KEY_PACK and the
   four CHUNK_KEY_GET accessors);
 * the redo log of redo.c (entry representation, redo_log_entry_apply,
   the entry iteration of redo_log_process);
 * the operation context of memops.c (operation_add_typed_entry,
   operation_perform);
 * the crit-bit tree of ctree.c (ctree_insert, ctree_find, ctree_remove)
   and the container wrappers of bucket.c on top of it;
 * the persistent backend of backend_persistent.c (pool headers, info
   slots, open_pmem_storage, recover_slot_realloc,
   backend_persistent_consistency_check);
 * the allocator entry points of pmalloc.c (pmalloc_construct,
   prealloc_construct, pfree), with the heap collaborators that are not
   part of the sources abstracted as parameters.

Machine integers are modelled as Nat with explicit reductions modulo
2 ^ 64 or 2 ^ 16 exactly where the C code truncates.  Memory is modelled
at the granularity the code manipulates it: a map from pool offsets to
64-bit words.  Definitions keep the names of the C functions they embed.
-/

/-! ## Generic bit-level helpers -/

/-- Value of Nat.log2 pinned down by the usual two-sided power bound;
this is how the concrete crit-bit computations below are evaluated. -/
theorem log2_eq_of {x k : Nat} (h1 : 2 ^ k ≤ x) (h2 : x < 2 ^ (k + 1)) :
    Nat.log2 x = k := by
  have hx : x ≠ 0 := by
    intro h
    rw [h] at h1
    have hp : 0 < 2 ^ k := Nat.pos_pow_of_pos k (by omega)
    omega
  have ha : k ≤ Nat.log2 x := (Nat.le_log2 hx).2 h1
  have hb : Nat.log2 x < k + 1 := (Nat.log2_lt hx).2 h2
  omega

/-- Masking with a shifted mask is the same as shifting, masking and
shifting back. -/
theorem and_shifted_mask (k m n : Nat) :
    k &&& (m <<< n) = ((k >>> n) &&& m) <<< n := by
  apply Nat.eq_of_testBit_eq
  intro i
  by_cases h : n ≤ i
  · simp [Nat.testBit_and, Nat.testBit_shiftLeft, Nat.testBit_shiftRight, h,
      Nat.add_sub_cancel' h]
  · simp [Nat.testBit_and, Nat.testBit_shiftLeft, h]

/-- Shifting left and then right by the same amount is the identity. -/
theorem shiftLeft_shiftRight_cancel (x n : Nat) : (x <<< n) >>> n = x := by
  rw [Nat.shiftLeft_eq, Nat.shiftRight_eq_div_pow]
  exact Nat.mul_div_cancel x (Nat.pos_pow_of_pos n (by omega))

/-! ## C10: the packed container key (bucket.c lines 58-75)

The memory-block descriptor fields are zone_id, chunk_id, block_off
(all uint16 in the C struct) and size_idx (uint32).  The pack macro
computes, on uint64, (s << 48 | b << 32 | c << 16 | z); the shift of the
32-bit size index truncates modulo 2 ^ 64, which keeps only its low
16 bits.  Arguments appear in the macro order (z, c, b, s). -/

/-- Embedding of the CHUNK_KEY_PACK macro of bucket.c. -/
def CHUNK_KEY_PACK (z c b s : Nat) : Nat :=
  ((s <<< 48) % 2 ^ 64) ||| (b <<< 32) ||| (c <<< 16) ||| z

/-- Embedding of CHUNK_KEY_GET_ZONE_ID. -/
def CHUNK_KEY_GET_ZONE_ID (k : Nat) : Nat := k &&& 0xFFFF

/-- Embedding of CHUNK_KEY_GET_CHUNK_ID. -/
def CHUNK_KEY_GET_CHUNK_ID (k : Nat) : Nat := (k &&& 0xFFFF0000) >>> 16

/-- Embedding of CHUNK_KEY_GET_BLOCK_OFF. -/
def CHUNK_KEY_GET_BLOCK_OFF (k : Nat) : Nat := (k &&& 0xFFFF00000000) >>> 32

/-- Embedding of CHUNK_KEY_GET_SIZE_IDX. -/
def CHUNK_KEY_GET_SIZE_IDX (k : Nat) : Nat := (k &&& 0xFFFF000000000000) >>> 48

/-- Arithmetic normal form of the packed key: with in-range uint16
fields the bit-or of the shifted fields is their weighted sum, with the
size index reduced to its low 16 bits by the uint64 truncation. -/
theorem CHUNK_KEY_PACK_eq_sum (z c b s : Nat)
    (hz : z < 2 ^ 16) (hc : c < 2 ^ 16) (hb : b < 2 ^ 16) :
    CHUNK_KEY_PACK z c b s =
      (s % 2 ^ 16) * 2 ^ 48 + (b * 2 ^ 32 + (c * 2 ^ 16 + z)) := by
  have hs48 : (s <<< 48) % 2 ^ 64 = (s % 2 ^ 16) * 2 ^ 48 := by
    rw [Nat.shiftLeft_eq]
    calc s * 2 ^ 48 % 2 ^ 64 = s * 2 ^ 48 % (2 ^ 16 * 2 ^ 48) := by norm_num
    _ = s % 2 ^ 16 * 2 ^ 48 := Nat.mul_mod_mul_right _ _ _
  have h1 : c * 2 ^ 16 + z = (c <<< 16) ||| z := by
    rw [Nat.shiftLeft_eq, Nat.mul_comm c (2 ^ 16)]
    exact Nat.mul_add_lt_is_or hz c
  have h2 : b * 2 ^ 32 + (c * 2 ^ 16 + z) = (b <<< 32) ||| (c * 2 ^ 16 + z) := by
    rw [Nat.shiftLeft_eq, Nat.mul_comm b (2 ^ 32)]
    exact Nat.mul_add_lt_is_or (by nlinarith) b
  have h3 : (s % 2 ^ 16) * 2 ^ 48 + (b * 2 ^ 32 + (c * 2 ^ 16 + z)) =
      ((s % 2 ^ 16) * 2 ^ 48) ||| (b * 2 ^ 32 + (c * 2 ^ 16 + z)) := by
    rw [Nat.mul_comm (s % 2 ^ 16) (2 ^ 48)]
    exact Nat.mul_add_lt_is_or (by nlinarith) (s % 2 ^ 16)
  rw [h3, CHUNK_KEY_PACK, hs48]
  conv_rhs => rw [h2, h1]
  rw [Nat.or_assoc, Nat.or_assoc]

/-- C10: with all four descriptor fields below 2 ^ 16 the four accessor
macros recover exactly the packed fields; the key is strictly monotone
in the size index; and for any (uint32) size index the key retains only
its low 16 bits. -/
theorem c10_chunk_key_roundtrip (z c b s s1 s2 : Nat)
    (hz : z < 2 ^ 16) (hc : c < 2 ^ 16) (hb : b < 2 ^ 16) :
    (s < 2 ^ 16 →
      CHUNK_KEY_GET_ZONE_ID (CHUNK_KEY_PACK z c b s) = z ∧
      CHUNK_KEY_GET_CHUNK_ID (CHUNK_KEY_PACK z c b s) = c ∧
      CHUNK_KEY_GET_BLOCK_OFF (CHUNK_KEY_PACK z c b s) = b ∧
      CHUNK_KEY_GET_SIZE_IDX (CHUNK_KEY_PACK z c b s) = s) ∧
    (s1 < s2 → s2 < 2 ^ 16 →
      CHUNK_KEY_PACK z c b s1 < CHUNK_KEY_PACK z c b s2) ∧
    CHUNK_KEY_GET_SIZE_IDX (CHUNK_KEY_PACK z c b s) = s % 2 ^ 16 := by
  have hmask16 : (0xFFFF : Nat) = 2 ^ 16 - 1 := by norm_num
  have key_sum := CHUNK_KEY_PACK_eq_sum z c b s hz hc hb
  have hzone : CHUNK_KEY_GET_ZONE_ID (CHUNK_KEY_PACK z c b s) = z := by
    rw [CHUNK_KEY_GET_ZONE_ID, hmask16, Nat.and_pow_two_sub_one_eq_mod, key_sum]
    have h16 : (2 : Nat) ^ 48 = 2 ^ 32 * 2 ^ 16 := by norm_num
    omega
  have hget : ∀ n k : Nat, (k &&& ((0xFFFF : Nat) <<< n)) >>> n =
      (k >>> n) &&& 0xFFFF := by
    intro n k
    rw [and_shifted_mask, shiftLeft_shiftRight_cancel]
  have hchunk : CHUNK_KEY_GET_CHUNK_ID (CHUNK_KEY_PACK z c b s) = c := by
    have e : (0xFFFF0000 : Nat) = (0xFFFF : Nat) <<< 16 := by decide
    rw [CHUNK_KEY_GET_CHUNK_ID, e, hget, hmask16,
      Nat.and_pow_two_sub_one_eq_mod, Nat.shiftRight_eq_div_pow, key_sum]
    have h1 : (2 : Nat) ^ 48 = 2 ^ 32 * 2 ^ 16 := by norm_num
    have h2 : (2 : Nat) ^ 32 = 2 ^ 16 * 2 ^ 16 := by norm_num
    omega
  have hblock : CHUNK_KEY_GET_BLOCK_OFF (CHUNK_KEY_PACK z c b s) = b := by
    have e : (0xFFFF00000000 : Nat) = (0xFFFF : Nat) <<< 32 := by decide
    rw [CHUNK_KEY_GET_BLOCK_OFF, e, hget, hmask16,
      Nat.and_pow_two_sub_one_eq_mod, Nat.shiftRight_eq_div_pow, key_sum]
    have h1 : (2 : Nat) ^ 48 = 2 ^ 16 * 2 ^ 32 := by norm_num
    have h2 : (2 : Nat) ^ 32 = 2 ^ 16 * 2 ^ 16 := by norm_num
    omega
  have hsize : CHUNK_KEY_GET_SIZE_IDX (CHUNK_KEY_PACK z c b s) = s % 2 ^ 16 := by
    have e : (0xFFFF000000000000 : Nat) = (0xFFFF : Nat) <<< 48 := by decide
    rw [CHUNK_KEY_GET_SIZE_IDX, e, hget, hmask16,
      Nat.and_pow_two_sub_one_eq_mod, Nat.shiftRight_eq_div_pow, key_sum]
    have h1 : (2 : Nat) ^ 48 = 2 ^ 16 * 2 ^ 32 := by norm_num
    have h2 : (2 : Nat) ^ 32 = 2 ^ 16 * 2 ^ 16 := by norm_num
    have hub : b * 2 ^ 32 + (c * 2 ^ 16 + z) < 2 ^ 48 := by nlinarith
    omega
  refine ⟨?_, ?_, hsize⟩
  · intro hs
    refine ⟨hzone, hchunk, hblock, ?_⟩
    rw [hsize, Nat.mod_eq_of_lt hs]
  · intro h12 h2
    rw [CHUNK_KEY_PACK_eq_sum z c b s1 hz hc hb,
      CHUNK_KEY_PACK_eq_sum z c b s2 hz hc hb,
      Nat.mod_eq_of_lt (lt_trans h12 h2), Nat.mod_eq_of_lt h2]
    have hub : b * 2 ^ 32 + (c * 2 ^ 16 + z) < 2 ^ 48 := by nlinarith
    nlinarith

/-- Concrete instance of the packed-key round trip. -/
theorem c10_chunk_key_roundtrip_witness :
    (1 : Nat) < 2 ^ 16 ∧ (2 : Nat) < 2 ^ 16 ∧ (3 : Nat) < 2 ^ 16 ∧
    (((70000 : Nat) < 2 ^ 16 →
      CHUNK_KEY_GET_ZONE_ID (CHUNK_KEY_PACK 1 2 3 70000) = 1 ∧
      CHUNK_KEY_GET_CHUNK_ID (CHUNK_KEY_PACK 1 2 3 70000) = 2 ∧
      CHUNK_KEY_GET_BLOCK_OFF (CHUNK_KEY_PACK 1 2 3 70000) = 3 ∧
      CHUNK_KEY_GET_SIZE_IDX (CHUNK_KEY_PACK 1 2 3 70000) = 70000) ∧
    ((4 : Nat) < 9 → (9 : Nat) < 2 ^ 16 →
      CHUNK_KEY_PACK 1 2 3 4 < CHUNK_KEY_PACK 1 2 3 9) ∧
    CHUNK_KEY_GET_SIZE_IDX (CHUNK_KEY_PACK 1 2 3 70000) = 70000 % 2 ^ 16) :=
  ⟨by decide, by decide, by decide,
    c10_chunk_key_roundtrip 1 2 3 70000 4 9 (by decide) (by decide) (by decide)⟩

/-! ## C1: the redo log (redo.c)

An entry of the 2018 revision of redo.c stores the operation type in the
three least significant bits of the pool-relative target offset
(REDO_OPERATION_MASK is 0b111, REDO_OFFSET_MASK its uint64 complement).
Memory is modelled as a map from byte offsets to the 64-bit word stored
there; entries with distinct offsets are modelled as acting on disjoint
words, matching the aligned word targets used by the allocator. -/

/-- Embedding of struct redo_log_entry_base together with the value of
the redo_log_entry_val payload used by the SET, AND and OR operations. -/
structure redo_log_entry_base where
  offset : Nat
  value : Nat
deriving DecidableEq

/-- Operation code of REDO_OPERATION_SET in the enumeration order of
redo.h. -/
def REDO_OPERATION_SET : Nat := 0

/-- Operation code of REDO_OPERATION_AND. -/
def REDO_OPERATION_AND : Nat := 1

/-- Operation code of REDO_OPERATION_OR. -/
def REDO_OPERATION_OR : Nat := 2

/-- Embedding of redo_log_entry_type (offset masked with
REDO_OPERATION_MASK = 0b111). -/
def redo_log_entry_type (e : redo_log_entry_base) : Nat :=
  e.offset &&& 0b111

/-- Embedding of redo_log_entry_offset (offset masked with
REDO_OFFSET_MASK, the uint64 complement of 0b111). -/
def redo_log_entry_offset (e : redo_log_entry_base) : Nat :=
  e.offset &&& (2 ^ 64 - 8)

/-- Word-granular memory of the pool: value of the 64-bit word at each
byte offset. -/
def WordMem : Type := Nat → Nat

/-- Pointwise update of one word. -/
def memUpdate (m : WordMem) (off v : Nat) : WordMem :=
  fun o => if o = off then v else m o

/-- Embedding of redo_log_entry_apply of redo.c for the value-carrying
operations: AND, OR and SET modify the 64-bit word at the entry offset.
The buffer operations (REDO_OPERATION_BUF_SET and BUF_CPY) act on byte
ranges outside this word-level model and are left as the identity; the
theorems below restrict the logs to SET, AND and OR entries, as the
specification sentence does. -/
def redo_log_entry_apply (e : redo_log_entry_base) (mem : WordMem) : WordMem :=
  let t := redo_log_entry_type e
  let off := redo_log_entry_offset e
  if t = REDO_OPERATION_AND then memUpdate mem off (mem off &&& e.value)
  else if t = REDO_OPERATION_OR then memUpdate mem off (mem off ||| e.value)
  else if t = REDO_OPERATION_SET then memUpdate mem off e.value
  else mem

/-- Application of a sequence of entries in order, the way
redo_log_foreach_entry invokes redo_log_process_entry. -/
def redo_apply_list (l : List redo_log_entry_base) (mem : WordMem) : WordMem :=
  l.foldl (fun m e => redo_log_entry_apply e m) mem

/-- One segment of a redo log: the data array of a struct redo_log, its
capacity being the length of the list. -/
structure redo_log_seg where
  entries : List redo_log_entry_base
deriving DecidableEq

/-- A redo log: the nentries field of the first segment, plus the chain
of segments linked through the next offsets. -/
structure redo_log where
  nentries : Nat
  segs : List redo_log_seg
deriving DecidableEq

/-- Entry visit sequence of redo_log_foreach_entry.  The loop visits, in
each segment of the chain, capacity entries (stopping once nentries
visits have been made in total); the offset cursor of the C loop is
initialised to zero and never advanced, so each visit within a segment
reads that segment's first entry. -/
def redo_log_visited : List redo_log_seg → Nat → List redo_log_entry_base
  | [], _ => []
  | s :: rest, n =>
    let k := min s.entries.length n
    List.replicate k (s.entries.headD ⟨0, 0⟩) ++ redo_log_visited rest (n - k)

/-- Embedding of redo_log_process: applies every visited entry in order
(through redo_log_process_entry, which calls redo_log_entry_apply). -/
def redo_log_process (log : redo_log) (mem : WordMem) : WordMem :=
  redo_apply_list (redo_log_visited log.segs log.nentries) mem

/-- Per-word effect masks of an entry sequence: processing a list of
SET, AND, OR entries turns the word at w from x into (x AND a) OR o,
where the pair (a, o) is folded up by this step function. -/
def entry_masks_step (w : Nat) (p : Nat × Nat) (e : redo_log_entry_base) :
    Nat × Nat :=
  if redo_log_entry_offset e = w then
    let t := redo_log_entry_type e
    if t = REDO_OPERATION_AND then (p.1 &&& e.value, p.2 &&& e.value)
    else if t = REDO_OPERATION_OR then (p.1, p.2 ||| e.value)
    else if t = REDO_OPERATION_SET then (0, e.value)
    else p
  else p

/-- Effect masks of a whole entry sequence at word w. -/
def entry_masks (l : List redo_log_entry_base) (w : Nat) : Nat × Nat :=
  l.foldl (entry_masks_step w) (2 ^ 64 - 1, 0)

/-- Bit algebra: conjunction after a masked update refolds into a
masked update. -/
theorem and_or_and_eq (x a o v : Nat) :
    ((x &&& a) ||| o) &&& v = (x &&& (a &&& v)) ||| (o &&& v) := by
  rw [Nat.and_distrib_right, Nat.and_assoc]

/-- Bit algebra: a disjunct absorbed by one of its own conjuncts. -/
theorem and_or_self_right (o a : Nat) : (o &&& a) ||| o = o := by
  apply Nat.eq_of_testBit_eq
  intro i
  simp only [Nat.testBit_or, Nat.testBit_and]
  cases o.testBit i <;> cases a.testBit i <;> rfl

/-- Pointwise reading of redo_log_entry_apply: the value at word w after
applying one entry. -/
theorem redo_log_entry_apply_at (e : redo_log_entry_base) (m : WordMem)
    (w : Nat) :
    redo_log_entry_apply e m w =
      if redo_log_entry_offset e = w then
        (if redo_log_entry_type e = 1 then m w &&& e.value
         else if redo_log_entry_type e = 2 then m w ||| e.value
         else if redo_log_entry_type e = 0 then e.value
         else m w)
      else m w := by
  rw [redo_log_entry_apply]
  simp only [REDO_OPERATION_AND, REDO_OPERATION_OR, REDO_OPERATION_SET]
  by_cases hoff : redo_log_entry_offset e = w
  · split_ifs <;> simp_all [memUpdate]
  · have hw : ¬ (w = redo_log_entry_offset e) := fun h => hoff h.symm
    split_ifs <;> simp_all [memUpdate]

/-- Characterization of redo_apply_list through the effect masks: for a
64-bit word, applying the sequence yields (x AND a) OR o. -/
theorem redo_apply_list_eq_masks (l : List redo_log_entry_base) (m : WordMem)
    (w : Nat) (hm : m w < 2 ^ 64) :
    redo_apply_list l m w =
      (m w &&& (entry_masks l w).1) ||| (entry_masks l w).2 := by
  induction l using List.reverseRecOn with
  | nil =>
    simp only [redo_apply_list, entry_masks, List.foldl_nil]
    rw [Nat.and_pow_two_sub_one_of_lt_two_pow hm, Nat.or_zero]
  | append_singleton l e ih =>
    simp only [redo_apply_list, entry_masks, List.foldl_append,
      List.foldl_cons, List.foldl_nil] at *
    rw [redo_log_entry_apply_at]
    simp only [entry_masks_step, REDO_OPERATION_AND, REDO_OPERATION_OR,
      REDO_OPERATION_SET]
    split_ifs
    · rw [ih, and_or_and_eq]
    · rw [ih, Nat.or_assoc]
    · rw [Nat.and_zero, Nat.zero_or]
    · exact ih
    · exact ih

/-- The effect masks stay below 2 ^ 64 when every entry value does
(the and-mask starts at the all-ones uint64 and only shrinks). -/
theorem entry_masks_fold_bounds (w : Nat) :
    ∀ (l : List redo_log_entry_base) (p : Nat × Nat), p.1 < 2 ^ 64 →
      p.2 < 2 ^ 64 → (∀ e ∈ l, e.value < 2 ^ 64) →
      (List.foldl (entry_masks_step w) p l).1 < 2 ^ 64 ∧
      (List.foldl (entry_masks_step w) p l).2 < 2 ^ 64 := by
  intro l
  induction l with
  | nil => intro p h1 h2 _; exact ⟨h1, h2⟩
  | cons e l ih =>
    intro p h1 h2 hv
    have hev : e.value < 2 ^ 64 := hv e (List.mem_cons_self e l)
    rw [List.foldl_cons]
    refine ih _ ?_ ?_ (fun x hx => hv x (List.mem_cons_of_mem e hx)) <;>
      · simp only [entry_masks_step]
        split_ifs <;>
          first
            | exact lt_of_le_of_lt Nat.and_le_left h1
            | exact lt_of_le_of_lt Nat.and_le_left h2
            | exact Nat.or_lt_two_pow h2 hev
            | exact h1
            | exact h2
            | exact hev
            | norm_num

/-- Effect-mask bound specialised to the standard initial accumulator. -/
theorem entry_masks_bounds (l : List redo_log_entry_base) (w : Nat)
    (hv : ∀ e ∈ l, e.value < 2 ^ 64) :
    (entry_masks l w).1 < 2 ^ 64 ∧ (entry_masks l w).2 < 2 ^ 64 :=
  entry_masks_fold_bounds w l (2 ^ 64 - 1, 0) (by norm_num) (by positivity) hv

/-- Every entry visited by redo_log_foreach_entry comes from the data
array of one of the log's segments. -/
theorem redo_log_visited_mem :
    ∀ (segs : List redo_log_seg) (n : Nat) (e : redo_log_entry_base),
      e ∈ redo_log_visited segs n → ∃ s ∈ segs, e ∈ s.entries := by
  intro segs
  induction segs with
  | nil => intro n e he; simp [redo_log_visited] at he
  | cons s rest ih =>
    intro n e he
    rw [redo_log_visited] at he
    rcases List.mem_append.1 he with h | h
    · have := List.eq_of_mem_replicate h
      subst this
      have hk : min s.entries.length n ≠ 0 := by
        intro h0
        rw [h0] at h
        simp at h
      have hne : s.entries ≠ [] := by
        intro h0
        rw [h0] at hk
        simp at hk
      refine ⟨s, List.mem_cons_self s rest, ?_⟩
      cases hcons : s.entries with
      | nil => exact absurd hcons hne
      | cons a t => simp [hcons]
    · obtain ⟨s', hs', he'⟩ := ih _ _ h
      exact ⟨s', List.mem_cons_of_mem s hs', he'⟩

/-- C1: redo-log processing is idempotent.  For every redo log whose
entries are SET, AND or OR operations on 64-bit words, running
redo_log_process a second time over the memory produced by the first
run leaves every target word unchanged. -/
theorem c1_redo_log_process_idempotent (log : redo_log) (m : WordMem) (w : Nat)
    (hm : ∀ u, m u < 2 ^ 64)
    (hv : ∀ s ∈ log.segs, ∀ e ∈ s.entries, e.value < 2 ^ 64)
    (_hty : ∀ s ∈ log.segs, ∀ e ∈ s.entries,
      redo_log_entry_type e = REDO_OPERATION_SET ∨
      redo_log_entry_type e = REDO_OPERATION_AND ∨
      redo_log_entry_type e = REDO_OPERATION_OR) :
    redo_log_process log (redo_log_process log m) w =
      redo_log_process log m w := by
  have hvl : ∀ e ∈ redo_log_visited log.segs log.nentries, e.value < 2 ^ 64 := by
    intro e he
    obtain ⟨s, hs, hes⟩ := redo_log_visited_mem _ _ _ he
    exact hv s hs e hes
  have hb := entry_masks_bounds (redo_log_visited log.segs log.nentries) w hvl
  have h1 : redo_log_process log m w =
      (m w &&& (entry_masks (redo_log_visited log.segs log.nentries) w).1) |||
        (entry_masks (redo_log_visited log.segs log.nentries) w).2 :=
    redo_apply_list_eq_masks _ m w (hm w)
  have hlt : redo_log_process log m w < 2 ^ 64 := by
    rw [h1]
    exact Nat.or_lt_two_pow (lt_of_le_of_lt Nat.and_le_right hb.1) hb.2
  have h2 : redo_log_process log (redo_log_process log m) w =
      ((redo_log_process log m w) &&&
          (entry_masks (redo_log_visited log.segs log.nentries) w).1) |||
        (entry_masks (redo_log_visited log.segs log.nentries) w).2 :=
    redo_apply_list_eq_masks _ (redo_log_process log m) w hlt
  rw [h2, h1, and_or_and_eq, Nat.and_self, Nat.or_assoc, and_or_self_right]

/-- Concrete memory for the idempotence witness. -/
def c1_mem : WordMem := fun _ => 7

/-- Concrete two-entry redo log for the idempotence witness: an AND of
value 6 on the word at offset 40 and an OR of value 3 on the word at
offset 80 (operation types packed into the low offset bits). -/
def c1_log : redo_log := ⟨2, [⟨[⟨41, 6⟩, ⟨82, 3⟩]⟩]⟩

/-- Concrete instance of redo-log idempotence. -/
theorem c1_redo_log_process_idempotent_witness :
    (∀ u, c1_mem u < 2 ^ 64) ∧
    (∀ s ∈ c1_log.segs, ∀ e ∈ s.entries, e.value < 2 ^ 64) ∧
    (∀ s ∈ c1_log.segs, ∀ e ∈ s.entries,
      redo_log_entry_type e = REDO_OPERATION_SET ∨
      redo_log_entry_type e = REDO_OPERATION_AND ∨
      redo_log_entry_type e = REDO_OPERATION_OR) ∧
    redo_log_process c1_log (redo_log_process c1_log c1_mem) 40 =
      redo_log_process c1_log c1_mem 40 :=
  ⟨fun _ => (by decide : (7 : Nat) < 2 ^ 64), by decide, by decide,
    c1_redo_log_process_idempotent c1_log c1_mem 40
      (fun _ => (by decide : (7 : Nat) < 2 ^ 64)) (by decide) (by decide)⟩

/-! ## C2: the operation context (memops.c)

The memops.c revision in the sources uses the older redo-log entry
interface (redo_log_entry_create, redo_log_offset, redo_log_operation)
whose implementation is not among the source files; redo.h only declares
it.  Modelled from the spec: an entry of that revision carries a
pool-relative offset, an operation type (the enumeration SET, AND, OR of
redo.h) and a 64-bit value, and the two accessors return the offset and
the operation. -/

/-- Entry of the operation log, with the offset and operation kept as
separate fields (see the section comment). -/
structure op_log_entry where
  off : Nat
  op : Nat
  value : Nat
deriving DecidableEq

/-- Match predicate of the duplicate scan in operation_add_typed_entry:
same pool offset and same operation type. -/
def op_entry_matches (off opty : Nat) (e : op_log_entry) : Bool :=
  e.off == off && e.op == opty

/-- Embedding of operation_perform of memops.c: the operation is applied
directly to the target word through the user pointer; for a duplicate
SET the function does nothing (the switch case is empty). -/
def operation_perform (mem : WordMem) (off value opty : Nat) : WordMem :=
  if opty = REDO_OPERATION_AND then memUpdate mem off (mem off &&& value)
  else if opty = REDO_OPERATION_OR then memUpdate mem off (mem off ||| value)
  else mem

/-- State of one operation log of the context (the entry array of
ctx->logs[log_type]) together with the memory the context acts on. -/
structure operation_log_state where
  entries : List op_log_entry
  mem : WordMem

/-- Embedding of operation_add_typed_entry of memops.c: the staged entry
is compared against the existing log entries in order by (offset,
operation); at the first match operation_perform is invoked on the
target pointer and the log is left untouched; with no match the entry is
appended (the capacity-growing Realloc is modelled as succeeding, and
the int return of the C function is always 0 on these paths). -/
def operation_add_typed_entry (st : operation_log_state)
    (off value opty : Nat) : operation_log_state :=
  if (st.entries.find? (op_entry_matches off opty)).isSome then
    { st with mem := operation_perform st.mem off value opty }
  else
    { st with entries := st.entries ++ [⟨off, opty, value⟩] }

/-- Memory for the coalescing counterexample: the word at offset 100
holds 42. -/
def c2_mem : WordMem := fun o => if o = 100 then 42 else 0

/-- Context state after staging one SET entry (offset 100, value 5)
into an empty log. -/
def c2_st1 : operation_log_state :=
  operation_add_typed_entry ⟨[], c2_mem⟩ 100 5 REDO_OPERATION_SET

/-- Context state after additionally staging a duplicate SET (value 9),
a first AND (mask 6) and a duplicate AND (mask 3) for the same word. -/
def c2_st4 : operation_log_state :=
  operation_add_typed_entry
    (operation_add_typed_entry
      (operation_add_typed_entry c2_st1 100 9 REDO_OPERATION_SET)
      100 6 REDO_OPERATION_AND)
    100 3 REDO_OPERATION_AND

/-- C2 counterexample: the claimed coalescing does not happen.  After
staging SET value 5 and then SET value 9 for the same word, the staged
entry still carries 5 (the new value is discarded, the latest value
does not win); and the duplicate AND mask 3 is applied to the target
word immediately (42 becomes 42 AND 3 = 2) instead of being merged into
the staged AND entry, whose mask stays 6 — so the target memory is
modified before the context is processed. -/
theorem c2_operation_add_typed_entry_counterexample :
    c2_st4.entries = [⟨100, REDO_OPERATION_SET, 5⟩,
      ⟨100, REDO_OPERATION_AND, 6⟩] ∧
    ¬ (⟨100, REDO_OPERATION_SET, 9⟩ ∈ c2_st4.entries) ∧
    c2_st4.mem 100 = 2 ∧ ¬ c2_st4.mem 100 = 42 := by
  refine ⟨by decide, by decide, by decide, by decide⟩

/-- C2 amended: what operation_add_typed_entry actually does.  With no
(offset, op) match the entry is appended and the memory untouched; at a
match the log is unchanged and the operation is applied to the target
word at once — which for SET means the new value is discarded, and for
AND and OR means the new mask takes effect in memory immediately rather
than by merging into the staged entry. -/
theorem c2_operation_add_typed_entry_amended (st : operation_log_state)
    (off value opty : Nat) :
    ((st.entries.find? (op_entry_matches off opty)).isSome = false →
      operation_add_typed_entry st off value opty =
        { st with entries := st.entries ++ [⟨off, opty, value⟩] }) ∧
    ((st.entries.find? (op_entry_matches off opty)).isSome = true →
      (operation_add_typed_entry st off value opty).entries = st.entries ∧
      (opty = REDO_OPERATION_SET →
        (operation_add_typed_entry st off value opty).mem = st.mem) ∧
      (opty = REDO_OPERATION_AND →
        (operation_add_typed_entry st off value opty).mem =
          memUpdate st.mem off (st.mem off &&& value)) ∧
      (opty = REDO_OPERATION_OR →
        (operation_add_typed_entry st off value opty).mem =
          memUpdate st.mem off (st.mem off ||| value))) := by
  constructor
  · intro h
    rw [operation_add_typed_entry, if_neg (by rw [h]; exact Bool.false_ne_true)]
  · intro h
    rw [operation_add_typed_entry, if_pos h]
    refine ⟨rfl, ?_, ?_, ?_⟩ <;> intro hop <;> subst hop <;>
      simp [operation_perform, REDO_OPERATION_SET, REDO_OPERATION_AND,
        REDO_OPERATION_OR]

/-- Concrete instance of the amended coalescing behavior: the duplicate
SET of value 9 leaves both the staged entries and the memory of the
context unchanged. -/
theorem c2_operation_add_typed_entry_amended_witness :
    (operation_add_typed_entry c2_st1 100 9 REDO_OPERATION_SET).entries =
      c2_st1.entries ∧
    (operation_add_typed_entry c2_st1 100 9 REDO_OPERATION_SET).mem =
      c2_st1.mem :=
  have h := (c2_operation_add_typed_entry_amended c2_st1 100 9
    REDO_OPERATION_SET).2 (by decide)
  ⟨h.1, h.2.1 rfl⟩

/-! ## C5 and C9: the crit-bit tree (ctree.c) and its container use

The tree is a pointer structure: the root is either null, a leaf (a
heap-allocated key) or an accessor node with two slots and the critical
bit position diff.  The option models the root pointer, the inductive
models accessor and leaf nodes. -/

/-- Nodes of the crit-bit tree of ctree.c: either a leaf carrying a key
or an accessor with two slots and the most significant difference. -/
inductive ctree_node where
  | leaf (k : Nat)
  | node (diff : Nat) (s0 s1 : ctree_node)
deriving DecidableEq

/-- A tree instance: the root pointer of struct ctree, possibly null. -/
def ctree : Type := Option ctree_node

/-- Embedding of find_crit_bit of ctree.c: 64 - clz(l xor r) - 1 is the
index of the most significant set bit of the (nonzero) uint64 xor,
which on Nat is its base-2 logarithm. -/
def find_crit_bit (lhs rhs : Nat) : Nat := Nat.log2 (lhs ^^^ rhs)

/-- Descent loop shared by ctree_insert, ctree_find and ctree_remove:
follow the slot selected by the key's bit at each accessor until a leaf
is reached, and return that leaf's key. -/
def ctree_descend : ctree_node → Nat → Nat
  | .leaf k, _ => k
  | .node d s0 s1, key =>
    if key.testBit d then ctree_descend s1 key else ctree_descend s0 key

/-- Accessor node built by ctree_insert: the new leaf goes into the
slot selected by the key's critical bit, the displaced subtree into the
other slot. -/
def ctree_mk_node (ndiff key : Nat) (c : ctree_node) : ctree_node :=
  if key.testBit ndiff then .node ndiff c (.leaf key)
  else .node ndiff (.leaf key) c

/-- Second descent of ctree_insert: walk down while the accessor diffs
stay at least the new critical bit (the critical bits have to be
sorted), and splice the new accessor in where the walk stops. -/
def ctree_insert_go (c : ctree_node) (key ndiff : Nat) : ctree_node :=
  match c with
  | .leaf _ => ctree_mk_node ndiff key c
  | .node d s0 s1 =>
    if d < ndiff then ctree_mk_node ndiff key (.node d s0 s1)
    else if key.testBit d then .node d s0 (ctree_insert_go s1 key ndiff)
    else .node d (ctree_insert_go s0 key ndiff) s1

/-- Error code EINVAL. -/
def EINVAL : Nat := 22

/-- Error code ENOMEM. -/
def ENOMEM : Nat := 12

/-- Embedding of ctree_insert of ctree.c: descend to the closest leaf;
a present key is rejected with EINVAL and the tree is unchanged;
otherwise the key is spliced in at the position determined by the
critical bit (leaf allocation is modelled as succeeding).  Returns the
error code together with the new tree. -/
def ctree_insert (t : ctree) (key : Nat) : Nat × ctree :=
  match t with
  | none => (0, some (.leaf key))
  | some c =>
    let dstkey := ctree_descend c key
    if dstkey = key then (EINVAL, t)
    else (0, some (ctree_insert_go c key (find_crit_bit dstkey key)))

/-- Embedding of ctree_find of ctree.c. -/
def ctree_find (t : ctree) (key : Nat) : Nat :=
  match t with
  | none => 0
  | some c => ctree_descend c key

/-- Removal of the leaf reached by the descent: the parent accessor is
replaced by the sibling slot (none signals that the tree became empty,
the root case of ctree_remove). -/
def ctree_remove_leaf : ctree_node → Nat → Option ctree_node
  | .leaf _, _ => none
  | .node d s0 s1, key =>
    if key.testBit d then
      match ctree_remove_leaf s1 key with
      | none => some s0
      | some s1' => some (.node d s0 s1')
    else
      match ctree_remove_leaf s0 key with
      | none => some s1
      | some s0' => some (.node d s0' s1)

/-- Embedding of ctree_remove of ctree.c: descend by the requested key;
if the reached leaf key is below the request, or differs from it in
exact-match mode, return 0 and leave the tree alone; otherwise unlink
that leaf and return its key. -/
def ctree_remove (t : ctree) (key : Nat) (eq : Bool) : Nat × ctree :=
  match t with
  | none => (0, none)
  | some c =>
    let k := ctree_descend c key
    if k < key ∨ (eq = true ∧ k ≠ key) then (0, t)
    else (k, ctree_remove_leaf c key)

/-- Multiset of keys stored in a subtree. -/
def ctree_keys : ctree_node → List Nat
  | .leaf k => [k]
  | .node _ s0 s1 => ctree_keys s0 ++ ctree_keys s1

/-- Keys of an optional subtree. -/
def ctree_opt_keys : Option ctree_node → List Nat
  | none => []
  | some c => ctree_keys c

/-- Two keys agree on every bit strictly above position d. -/
def agree_above (d k1 k2 : Nat) : Prop :=
  ∀ i, d < i → k1.testBit i = k2.testBit i

/-- Structural invariant of the crit-bit tree: at an accessor with
critical bit d, slot 0 keys have bit d clear, slot 1 keys have it set,
all keys of the subtree agree above d, and both slots are themselves
well formed. -/
def ctree_inv : ctree_node → Prop
  | .leaf _ => True
  | .node d s0 s1 =>
      (∀ k ∈ ctree_keys s0, k.testBit d = false) ∧
      (∀ k ∈ ctree_keys s1, k.testBit d = true) ∧
      (∀ k1 ∈ ctree_keys s0 ++ ctree_keys s1,
        ∀ k2 ∈ ctree_keys s0 ++ ctree_keys s1, agree_above d k1 k2) ∧
      ctree_inv s0 ∧ ctree_inv s1

/-- The descent always ends at a key of the tree. -/
theorem ctree_descend_mem (c : ctree_node) (key : Nat) :
    ctree_descend c key ∈ ctree_keys c := by
  induction c with
  | leaf k => simp [ctree_descend, ctree_keys]
  | node d s0 s1 ih0 ih1 =>
    rw [ctree_descend, ctree_keys]
    split_ifs
    · exact List.mem_append_right _ ih1
    · exact List.mem_append_left _ ih0

/-- On a well-formed tree the descent finds any present key. -/
theorem ctree_descend_of_mem (c : ctree_node) (key : Nat)
    (hinv : ctree_inv c) (hmem : key ∈ ctree_keys c) :
    ctree_descend c key = key := by
  induction c with
  | leaf k =>
    rw [ctree_keys] at hmem
    simp at hmem
    rw [ctree_descend, hmem]
  | node d s0 s1 ih0 ih1 =>
    obtain ⟨h0, h1, _, hi0, hi1⟩ := hinv
    rw [ctree_keys] at hmem
    rw [ctree_descend]
    rcases List.mem_append.1 hmem with h | h
    · rw [if_neg (by rw [h0 key h]; exact Bool.false_ne_true)]
      exact ih0 hi0 h
    · rw [if_pos (h1 key h)]
      exact ih1 hi1 h

/-- The most significant set bit of a nonzero number is set. -/
theorem testBit_log2_self {x : Nat} (hx : x ≠ 0) :
    x.testBit (Nat.log2 x) = true := by
  have h1 : 2 ^ Nat.log2 x ≤ x := Nat.log2_self_le hx
  have h2 : x < 2 ^ (Nat.log2 x + 1) := Nat.lt_log2_self
  have hdiv : x / 2 ^ Nat.log2 x = 1 := by
    apply Nat.div_eq_of_lt_le
    · omega
    · rw [pow_succ] at h2
      omega
  rw [Nat.testBit_to_div_mod, hdiv]
  rfl

/-- Bits above the base-2 logarithm are clear. -/
theorem testBit_gt_log2 {x i : Nat} (h : Nat.log2 x < i) :
    x.testBit i = false := by
  apply Nat.testBit_lt_two_pow
  calc x < 2 ^ (Nat.log2 x + 1) := Nat.lt_log2_self
  _ ≤ 2 ^ i := Nat.pow_le_pow_right (by omega) (by omega)

/-- Two distinct keys differ at their critical bit. -/
theorem crit_bit_neq {a b : Nat} (h : a ≠ b) :
    a.testBit (find_crit_bit a b) ≠ b.testBit (find_crit_bit a b) := by
  have hx : a ^^^ b ≠ 0 := by
    intro h0
    apply h
    apply Nat.eq_of_testBit_eq
    intro i
    have := congrArg (fun n => n.testBit i) h0
    simp only [Nat.testBit_xor, Nat.zero_testBit] at this
    cases ha : a.testBit i <;> cases hb : b.testBit i <;>
      simp_all
  have := testBit_log2_self hx
  rw [Nat.testBit_xor] at this
  intro hab
  rw [find_crit_bit] at hab
  rw [hab] at this
  simp at this

/-- Two keys agree on every bit above their critical bit. -/
theorem crit_bit_agree (a b : Nat) :
    agree_above (find_crit_bit a b) a b := by
  intro i hi
  rw [find_crit_bit] at hi
  have := testBit_gt_log2 (x := a ^^^ b) hi
  rw [Nat.testBit_xor] at this
  cases ha : a.testBit i <;> cases hb : b.testBit i <;> simp_all

/-- Agreement above a bit is symmetric. -/
theorem agree_above_symm {d a b : Nat} (h : agree_above d a b) :
    agree_above d b a := fun i hi => (h i hi).symm

/-- Agreement above a larger bit follows from agreement above a smaller
one. -/
theorem agree_above_mono {nd d a b : Nat} (hle : nd ≤ d)
    (h : agree_above nd a b) : agree_above d a b :=
  fun i hi => h i (lt_of_le_of_lt hle hi)

/-- Splicing a new accessor with the new leaf preserves the invariant,
provided every key of the displaced subtree agrees with the descent key
at the critical bit and above. -/
theorem ctree_mk_node_spec (key dstkey ndiff : Nat)
    (hneq : dstkey.testBit ndiff ≠ key.testBit ndiff)
    (hagree : agree_above ndiff dstkey key)
    (c : ctree_node) (hinv : ctree_inv c)
    (hbits : ∀ k ∈ ctree_keys c, ∀ i, ndiff ≤ i → k.testBit i = dstkey.testBit i) :
    ctree_inv (ctree_mk_node ndiff key c) ∧
    (ctree_keys (ctree_mk_node ndiff key c)).Perm (key :: ctree_keys c) := by
  have hckey : ∀ k ∈ ctree_keys c, ∀ i, ndiff < i → k.testBit i = key.testBit i := by
    intro k hk i hi
    rw [hbits k hk i (le_of_lt hi)]
    exact hagree i hi
  have hcnd : ∀ k ∈ ctree_keys c, k.testBit ndiff = dstkey.testBit ndiff :=
    fun k hk => hbits k hk ndiff (le_refl _)
  have hpairsAll : ∀ k1 ∈ key :: ctree_keys c, ∀ k2 ∈ key :: ctree_keys c,
      agree_above ndiff k1 k2 := by
    intro k1 h1 k2 h2 i hi
    have e1 : k1.testBit i = key.testBit i := by
      rcases List.mem_cons.1 h1 with h | h
      · rw [h]
      · exact hckey k1 h i hi
    have e2 : k2.testBit i = key.testBit i := by
      rcases List.mem_cons.1 h2 with h | h
      · rw [h]
      · exact hckey k2 h i hi
    rw [e1, e2]
  rw [ctree_mk_node]
  split_ifs with hb
  · have hdb : dstkey.testBit ndiff = false := by
      cases h : dstkey.testBit ndiff
      · rfl
      · exact absurd (h.trans hb.symm) hneq
    constructor
    · simp only [ctree_inv, ctree_keys]
      refine ⟨?_, ?_, ?_, hinv, trivial⟩
      · intro k hk
        rw [hcnd k hk, hdb]
      · intro k hk
        simp only [List.mem_singleton] at hk
        rw [hk, hb]
      · have hmm : ∀ k, k ∈ ctree_keys c ++ [key] → k ∈ key :: ctree_keys c := by
          intro k hk
          rcases List.mem_append.1 hk with h | h
          · exact List.mem_cons_of_mem _ h
          · simp only [List.mem_singleton] at h
            rw [h]
            exact List.mem_cons_self _ _
        intro k1 h1 k2 h2
        exact hpairsAll k1 (hmm k1 h1) k2 (hmm k2 h2)
    · simp only [ctree_keys]
      exact List.perm_append_comm
  · have hkb : key.testBit ndiff = false := by
      cases h : key.testBit ndiff
      · rfl
      · exact absurd h hb
    have hdb : dstkey.testBit ndiff = true := by
      cases h : dstkey.testBit ndiff
      · exact absurd (h.trans hkb.symm) hneq
      · rfl
    constructor
    · simp only [ctree_inv, ctree_keys]
      refine ⟨?_, ?_, ?_, trivial, hinv⟩
      · intro k hk
        simp only [List.mem_singleton] at hk
        rw [hk, hkb]
      · intro k hk
        rw [hcnd k hk, hdb]
      · have hmm : ∀ k, k ∈ [key] ++ ctree_keys c → k ∈ key :: ctree_keys c := by
          intro k hk
          rcases List.mem_append.1 hk with h | h
          · simp only [List.mem_singleton] at h
            rw [h]
            exact List.mem_cons_self _ _
          · exact List.mem_cons_of_mem _ h
        intro k1 h1 k2 h2
        exact hpairsAll k1 (hmm k1 h1) k2 (hmm k2 h2)
    · simp only [ctree_keys, List.singleton_append]
      exact List.Perm.refl _

/-- The second descent of ctree_insert preserves the invariant and adds
exactly the new key, given the critical-bit facts relating the new key
to the key found by the first descent. -/
theorem ctree_insert_go_spec (key dstkey ndiff : Nat)
    (hneq : dstkey.testBit ndiff ≠ key.testBit ndiff)
    (hagree : agree_above ndiff dstkey key) :
    ∀ c : ctree_node, ctree_inv c → ctree_descend c key = dstkey →
      ctree_inv (ctree_insert_go c key ndiff) ∧
      (ctree_keys (ctree_insert_go c key ndiff)).Perm (key :: ctree_keys c) := by
  intro c
  induction c with
  | leaf k0 =>
    intro _ hd
    rw [ctree_descend] at hd
    rw [ctree_insert_go]
    refine ctree_mk_node_spec key dstkey ndiff hneq hagree
      (ctree_node.leaf k0) (by trivial) ?_
    intro k hk i _
    simp only [ctree_keys, List.mem_singleton] at hk
    rw [hk, hd]
  | node d s0 s1 ih0 ih1 =>
    intro hinv hd
    obtain ⟨h0, h1, hpair, hi0, hi1⟩ := hinv
    rw [ctree_insert_go]
    by_cases hdlt : d < ndiff
    · rw [if_pos hdlt]
      refine ctree_mk_node_spec key dstkey ndiff hneq hagree
        (ctree_node.node d s0 s1) ⟨h0, h1, hpair, hi0, hi1⟩ ?_
      have hdmem : dstkey ∈ ctree_keys (.node d s0 s1) :=
        hd ▸ ctree_descend_mem _ key
      intro k hk i hige
      exact hpair k hk dstkey hdmem i (lt_of_lt_of_le hdlt hige)
    · rw [if_neg hdlt]
      have hnd_le : ndiff ≤ d := le_of_not_lt hdlt
      have hkey_dst : agree_above d key dstkey :=
        agree_above_symm (agree_above_mono hnd_le hagree)
      rw [ctree_descend] at hd
      by_cases hkd : key.testBit d = true
      · rw [if_pos hkd] at hd ⊢
        obtain ⟨hins1, hperm1⟩ := ih1 hi1 hd
        have hdmem1 : dstkey ∈ ctree_keys s1 := hd ▸ ctree_descend_mem s1 key
        have hmem1 : ∀ k ∈ ctree_keys (ctree_insert_go s1 key ndiff),
            k = key ∨ k ∈ ctree_keys s1 := by
          intro k hk
          exact List.mem_cons.1 (hperm1.subset hk)
        refine ⟨⟨h0, ?_, ?_, hi0, hins1⟩, ?_⟩
        · intro k hk
          rcases hmem1 k hk with h | h
          · rw [h]; exact hkd
          · exact h1 k h
        · have hrel : ∀ k ∈ ctree_keys s0 ++
              ctree_keys (ctree_insert_go s1 key ndiff),
              agree_above d k dstkey := by
            intro k hk
            rcases List.mem_append.1 hk with h | h
            · exact hpair k (List.mem_append_left _ h) dstkey
                (List.mem_append_right _ hdmem1)
            · rcases hmem1 k h with h' | h'
              · rw [h']; exact hkey_dst
              · exact hpair k (List.mem_append_right _ h') dstkey
                  (List.mem_append_right _ hdmem1)
          intro k1 hk1 k2 hk2 i hi
          rw [hrel k1 hk1 i hi, hrel k2 hk2 i hi]
        · simp only [ctree_keys]
          exact (List.Perm.append_left _ hperm1).trans List.perm_middle
      · rw [if_neg hkd] at hd ⊢
        obtain ⟨hins0, hperm0⟩ := ih0 hi0 hd
        have hdmem0 : dstkey ∈ ctree_keys s0 := hd ▸ ctree_descend_mem s0 key
        have hmem0 : ∀ k ∈ ctree_keys (ctree_insert_go s0 key ndiff),
            k = key ∨ k ∈ ctree_keys s0 := by
          intro k hk
          exact List.mem_cons.1 (hperm0.subset hk)
        have hkdf : key.testBit d = false := by
          cases h : key.testBit d
          · rfl
          · exact absurd h hkd
        refine ⟨⟨?_, h1, ?_, hins0, hi1⟩, ?_⟩
        · intro k hk
          rcases hmem0 k hk with h | h
          · rw [h]; exact hkdf
          · exact h0 k h
        · have hrel : ∀ k ∈ ctree_keys (ctree_insert_go s0 key ndiff) ++
              ctree_keys s1, agree_above d k dstkey := by
            intro k hk
            rcases List.mem_append.1 hk with h | h
            · rcases hmem0 k h with h' | h'
              · rw [h']; exact hkey_dst
              · exact hpair k (List.mem_append_left _ h') dstkey
                  (List.mem_append_left _ hdmem0)
            · exact hpair k (List.mem_append_right _ h) dstkey
                (List.mem_append_left _ hdmem0)
          intro k1 hk1 k2 hk2 i hi
          rw [hrel k1 hk1 i hi, hrel k2 hk2 i hi]
        · simp only [ctree_keys]
          exact List.Perm.append_right _ hperm0

/-- A well-formed crit-bit tree never holds the same key twice: the two
slots of every accessor are separated by the critical bit. -/
theorem ctree_inv_nodup : ∀ c : ctree_node, ctree_inv c →
    (ctree_keys c).Nodup := by
  intro c
  induction c with
  | leaf k => intro _; simp [ctree_keys]
  | node d s0 s1 ih0 ih1 =>
    intro hinv
    obtain ⟨h0, h1, _, hi0, hi1⟩ := hinv
    rw [ctree_keys, List.nodup_append]
    refine ⟨ih0 hi0, ih1 hi1, ?_⟩
    intro k hk0 hk1
    have := (h0 k hk0).symm.trans (h1 k hk1)
    simp at this

/-- Only a leaf collapses to an empty tree on removal. -/
theorem ctree_remove_leaf_none (c : ctree_node) (key : Nat)
    (h : ctree_remove_leaf c key = none) : ∃ k, c = .leaf k := by
  cases c with
  | leaf k => exact ⟨k, rfl⟩
  | node d s0 s1 =>
    exfalso
    rw [ctree_remove_leaf] at h
    split_ifs at h
    · cases hrec : ctree_remove_leaf s1 key <;> rw [hrec] at h <;> simp at h
    · cases hrec : ctree_remove_leaf s0 key <;> rw [hrec] at h <;> simp at h

/-- Unlinking the reached leaf removes exactly the descent key. -/
theorem ctree_remove_leaf_perm : ∀ (c : ctree_node) (key : Nat),
    (ctree_descend c key ::
      ctree_opt_keys (ctree_remove_leaf c key)).Perm (ctree_keys c) := by
  intro c
  induction c with
  | leaf k =>
    intro key
    simp [ctree_descend, ctree_remove_leaf, ctree_opt_keys, ctree_keys]
  | node d s0 s1 ih0 ih1 =>
    intro key
    rw [ctree_descend, ctree_remove_leaf, ctree_keys]
    split_ifs with hkd
    · cases hrec : ctree_remove_leaf s1 key with
      | none =>
        obtain ⟨k1, hk1⟩ := ctree_remove_leaf_none s1 key hrec
        subst hk1
        rw [ctree_descend, ctree_keys]
        simp only [ctree_opt_keys]
        exact @List.perm_append_comm _ [k1] (ctree_keys s0)
      | some s1' =>
        have ihr := ih1 key
        rw [hrec] at ihr
        simp only [ctree_opt_keys] at ihr ⊢
        rw [ctree_keys]
        exact List.perm_middle.symm.trans (List.Perm.append_left _ ihr)
    · cases hrec : ctree_remove_leaf s0 key with
      | none =>
        obtain ⟨k0, hk0⟩ := ctree_remove_leaf_none s0 key hrec
        subst hk0
        rw [ctree_descend]
        simp only [ctree_opt_keys, ctree_keys, List.singleton_append]
        exact List.Perm.refl _
      | some s0' =>
        have ihr := ih0 key
        rw [hrec] at ihr
        simp only [ctree_opt_keys] at ihr ⊢
        rw [ctree_keys]
        exact List.Perm.append_right _ ihr

/-- Unlinking a leaf keeps the tree well formed. -/
theorem ctree_remove_leaf_inv : ∀ (c : ctree_node) (key : Nat),
    ctree_inv c → ∀ c', ctree_remove_leaf c key = some c' → ctree_inv c' := by
  intro c
  induction c with
  | leaf k => intro key _ c' h; simp [ctree_remove_leaf] at h
  | node d s0 s1 ih0 ih1 =>
    intro key hinv c' h
    obtain ⟨h0, h1, hpair, hi0, hi1⟩ := hinv
    rw [ctree_remove_leaf] at h
    split_ifs at h with hkd
    · cases hrec : ctree_remove_leaf s1 key with
      | none =>
        rw [hrec] at h
        simp only [Option.some.injEq] at h
        rw [← h]
        exact hi0
      | some s1' =>
        rw [hrec] at h
        simp only [Option.some.injEq] at h
        have hsub : ∀ k ∈ ctree_keys s1', k ∈ ctree_keys s1 := by
          intro k hk
          have hperm := ctree_remove_leaf_perm s1 key
          rw [hrec] at hperm
          simp only [ctree_opt_keys] at hperm
          exact hperm.subset (List.mem_cons_of_mem _ hk)
        rw [← h]
        refine ⟨h0, fun k hk => h1 k (hsub k hk), ?_, hi0, ih1 key hi1 s1' hrec⟩
        intro k1 hk1 k2 hk2
        have hm : ∀ k, k ∈ ctree_keys s0 ++ ctree_keys s1' →
            k ∈ ctree_keys s0 ++ ctree_keys s1 := by
          intro k hk
          rcases List.mem_append.1 hk with hx | hx
          · exact List.mem_append_left _ hx
          · exact List.mem_append_right _ (hsub k hx)
        exact hpair k1 (hm k1 hk1) k2 (hm k2 hk2)
    · cases hrec : ctree_remove_leaf s0 key with
      | none =>
        rw [hrec] at h
        simp only [Option.some.injEq] at h
        rw [← h]
        exact hi1
      | some s0' =>
        rw [hrec] at h
        simp only [Option.some.injEq] at h
        have hsub : ∀ k ∈ ctree_keys s0', k ∈ ctree_keys s0 := by
          intro k hk
          have hperm := ctree_remove_leaf_perm s0 key
          rw [hrec] at hperm
          simp only [ctree_opt_keys] at hperm
          exact hperm.subset (List.mem_cons_of_mem _ hk)
        rw [← h]
        refine ⟨fun k hk => h0 k (hsub k hk), h1, ?_, ih0 key hi0 s0' hrec, hi1⟩
        intro k1 hk1 k2 hk2
        have hm : ∀ k, k ∈ ctree_keys s0' ++ ctree_keys s1 →
            k ∈ ctree_keys s0 ++ ctree_keys s1 := by
          intro k hk
          rcases List.mem_append.1 hk with hx | hx
          · exact List.mem_append_left _ (hsub k hx)
          · exact List.mem_append_right _ hx
        exact hpair k1 (hm k1 hk1) k2 (hm k2 hk2)

/-- Volatile memory-block descriptor of the new heap revision: zone,
chunk, in-run block offset and size index. -/
structure memory_block where
  zone_id : Nat
  chunk_id : Nat
  block_off : Nat
  size_idx : Nat
deriving DecidableEq

/-- Packed container key of a memory block, as every bucket.c container
function computes it. -/
def memory_block_key (m : memory_block) : Nat :=
  CHUNK_KEY_PACK m.zone_id m.chunk_id m.block_off m.size_idx

/-- The crit-bit container of bucket.c: a block_container_ctree wraps a
ctree instance. -/
structure block_container_ctree where
  tree : ctree

/-- Embedding of bucket_tree_insert_block of bucket.c: pack the block
key and insert it into the tree, returning the ctree_insert error
code. -/
def bucket_tree_insert_block (bc : block_container_ctree)
    (m : memory_block) : Nat × block_container_ctree :=
  let r := ctree_insert bc.tree (memory_block_key m)
  (r.1, ⟨r.2⟩)

/-- Embedding of bucket_tree_get_rm_block_bestfit of bucket.c: pack the
request, call ctree_remove with eq = 0; a zero key means ENOMEM,
otherwise the block fields are unpacked from the returned key. -/
def bucket_tree_get_rm_block_bestfit (bc : block_container_ctree)
    (m : memory_block) : Nat × memory_block × block_container_ctree :=
  let r := ctree_remove bc.tree (memory_block_key m) false
  if r.1 = 0 then (ENOMEM, m, bc)
  else (0, ⟨CHUNK_KEY_GET_ZONE_ID r.1, CHUNK_KEY_GET_CHUNK_ID r.1,
    CHUNK_KEY_GET_BLOCK_OFF r.1, CHUNK_KEY_GET_SIZE_IDX r.1⟩, ⟨r.2⟩)

/-- The list container of bucket.c: the doubly-linked block list plus
the cuckoo hash from packed key to list node. -/
structure block_container_list where
  blocks : List memory_block
  map : List (Nat × memory_block)
deriving DecidableEq

/-- Modelled from the spec: cuckoo_insert of cuckoo.c is not among the
source files; per the container contract an insert of a key that is
already present fails, and otherwise the binding is added. -/
def cuckoo_insert (m : List (Nat × memory_block)) (key : Nat)
    (v : memory_block) : Option (List (Nat × memory_block)) :=
  if (m.find? (fun p => p.1 == key)).isSome then none
  else some ((key, v) :: m)

/-- Embedding of bucket_list_insert_block of bucket.c: allocate the
node, try the cuckoo map insert first, and only on success link the
node at the list head; on failure the node is freed, ENOMEM is
returned, and the container is unchanged. -/
def bucket_list_insert_block (c : block_container_list)
    (m : memory_block) : Nat × block_container_list :=
  match cuckoo_insert c.map (memory_block_key m) m with
  | none => (ENOMEM, c)
  | some map' => (0, ⟨m :: c.blocks, map'⟩)

/-- Well-formedness of a tree instance: the root is null or the subtree
invariant holds. -/
def ctree_wf : ctree → Prop
  | none => True
  | some c => ctree_inv c

/-- C9: container uniqueness.  On well-formed containers the key lists
are duplicate-free; inserting a key that is already present fails with
EINVAL and leaves the ctree container unchanged; insert and remove
preserve well-formedness; and the list container rejects a block whose
packed key is already in the cuckoo map, leaving the container
unchanged. -/
theorem c9_container_unique (t : ctree) (key : Nat) (eqflag : Bool)
    (hwf : ctree_wf t) (lc : block_container_list) (m : memory_block) :
    (ctree_opt_keys t).Nodup ∧
    (key ∈ ctree_opt_keys t → ctree_insert t key = (EINVAL, t)) ∧
    ctree_wf (ctree_insert t key).2 ∧
    ctree_wf (ctree_remove t key eqflag).2 ∧
    ((lc.map.find? (fun p => p.1 == memory_block_key m)).isSome →
      bucket_list_insert_block lc m = (ENOMEM, lc)) := by
  refine ⟨?_, ?_, ?_, ?_, ?_⟩
  · cases t with
    | none => simp [ctree_opt_keys]
    | some c => exact ctree_inv_nodup c hwf
  · intro hmem
    cases t with
    | none => simp [ctree_opt_keys] at hmem
    | some c =>
      simp only [ctree_opt_keys] at hmem
      rw [ctree_insert]
      rw [if_pos (ctree_descend_of_mem c key hwf hmem)]
  · cases t with
    | none => exact trivial
    | some c =>
      rw [ctree_insert]
      by_cases hdk : ctree_descend c key = key
      · rw [if_pos hdk]
        exact hwf
      · rw [if_neg hdk]
        exact (ctree_insert_go_spec key (ctree_descend c key)
          (find_crit_bit (ctree_descend c key) key)
          (crit_bit_neq hdk) (crit_bit_agree _ _) c hwf rfl).1
  · cases t with
    | none => exact trivial
    | some c =>
      rw [ctree_remove]
      split_ifs
      · exact hwf
      · cases hrec : ctree_remove_leaf c key with
        | none => exact trivial
        | some c' => exact ctree_remove_leaf_inv c key hwf c' hrec
  · intro hfind
    rw [bucket_list_insert_block, cuckoo_insert, if_pos hfind]

/-- Concrete instance of container uniqueness: a single-leaf tree with
key 5 rejects a duplicate insert of 5, and a list container whose map
already holds the packed key of the block rejects the block. -/
theorem c9_container_unique_witness :
    (ctree_opt_keys (some (ctree_node.leaf 5))).Nodup ∧
    ((5 : Nat) ∈ ctree_opt_keys (some (ctree_node.leaf 5)) →
      ctree_insert (some (ctree_node.leaf 5)) 5 =
        (EINVAL, some (ctree_node.leaf 5))) ∧
    ctree_wf (ctree_insert (some (ctree_node.leaf 5)) 5).2 ∧
    ctree_wf (ctree_remove (some (ctree_node.leaf 5)) 5 true).2 ∧
    ((([(memory_block_key ⟨0, 1, 0, 7⟩, (⟨0, 1, 0, 7⟩ : memory_block))] :
        List (Nat × memory_block)).find?
        (fun p => p.1 == memory_block_key ⟨0, 1, 0, 7⟩)).isSome →
      bucket_list_insert_block ⟨[], [(memory_block_key ⟨0, 1, 0, 7⟩, ⟨0, 1, 0, 7⟩)]⟩
          ⟨0, 1, 0, 7⟩ =
        (ENOMEM, ⟨[], [(memory_block_key ⟨0, 1, 0, 7⟩, ⟨0, 1, 0, 7⟩)]⟩)) :=
  c9_container_unique (some (ctree_node.leaf 5)) 5 true (by trivial)
    ⟨[], [(memory_block_key ⟨0, 1, 0, 7⟩, ⟨0, 1, 0, 7⟩)]⟩ ⟨0, 1, 0, 7⟩

/-- C5 amended: what ctree_remove with eq = 0 (the remove_bestfit mode
of bucket_tree_get_rm_block_bestfit) guarantees.  Either it fails,
returning (0, unchanged tree) because the leaf reached by descending
with the request bits lies below the request; or it returns a key at
least the request that was present in the container, and removes
exactly that key.  It does not return the smallest sufficient key: the
descent is steered by the request's bits alone (see the
counterexample). -/
theorem c5_remove_bestfit_amended (c : ctree_node) (key : Nat) :
    (ctree_remove (some c) key false = (0, some c) ∧
      ctree_descend c key < key) ∨
    (key ≤ (ctree_remove (some c) key false).1 ∧
      (ctree_remove (some c) key false).1 ∈ ctree_keys c ∧
      ((ctree_remove (some c) key false).1 ::
        ctree_opt_keys (ctree_remove (some c) key false).2).Perm
        (ctree_keys c)) := by
  rw [ctree_remove]
  by_cases hlt : ctree_descend c key < key
  · left
    rw [if_pos (Or.inl hlt)]
    exact ⟨rfl, hlt⟩
  · right
    rw [if_neg (by push_neg; exact ⟨le_of_not_lt hlt, by simp⟩)]
    exact ⟨le_of_not_lt hlt, ctree_descend_mem c key, ctree_remove_leaf_perm c key⟩

/-- Container holding the two free blocks of the best-fit
counterexample: block A = (zone 0, chunk 0, off 0, size 4) and block
B = (zone 0, chunk 1, off 0, size 7), inserted through the bucket.c
wrapper starting from an empty tree. -/
def c5_bc : block_container_ctree :=
  (bucket_tree_insert_block
    (bucket_tree_insert_block ⟨none⟩ ⟨0, 0, 0, 4⟩).2 ⟨0, 1, 0, 7⟩).2

/-- Critical bit between the two packed keys of the counterexample:
the keys are 4 * 2 ^ 48 and 7 * 2 ^ 48 + 2 ^ 16, so the most
significant differing bit is bit 49. -/
theorem c5_crit_bit :
    find_crit_bit (memory_block_key ⟨0, 0, 0, 4⟩)
      (memory_block_key ⟨0, 1, 0, 7⟩) = 49 := by
  rw [find_crit_bit]
  exact log2_eq_of (by decide) (by decide)

/-- Shape of the counterexample container after the two inserts. -/
theorem c5_bc_tree :
    c5_bc.tree = some (ctree_node.node 49
      (ctree_node.leaf (memory_block_key ⟨0, 0, 0, 4⟩))
      (ctree_node.leaf (memory_block_key ⟨0, 1, 0, 7⟩))) := by
  have h1 : c5_bc.tree =
      (ctree_insert (some (ctree_node.leaf (memory_block_key ⟨0, 0, 0, 4⟩)))
        (memory_block_key ⟨0, 1, 0, 7⟩)).2 := rfl
  rw [h1, ctree_insert]
  simp only [ctree_descend]
  rw [if_neg (by decide)]
  rw [c5_crit_bit]
  rw [ctree_insert_go, ctree_mk_node]
  rw [if_pos (by decide : (memory_block_key ⟨0, 1, 0, 7⟩).testBit 49 = true)]

/-- C5 counterexample: best-fit order is violated.  With blocks A
(size 4) and B (size 7) in the container, pack(A) < pack(B), a
remove_bestfit request of size 2 (which A satisfies) returns B; and a
request of size 5, although B is large enough, fails with ENOMEM and a
zero key.  Both contradict the claimed container order. -/
theorem c5_remove_bestfit_counterexample :
    memory_block_key ⟨0, 0, 0, 4⟩ < memory_block_key ⟨0, 1, 0, 7⟩ ∧
    (2 : Nat) ≤ 4 ∧
    (bucket_tree_get_rm_block_bestfit c5_bc ⟨0, 0, 0, 2⟩).1 = 0 ∧
    (bucket_tree_get_rm_block_bestfit c5_bc ⟨0, 0, 0, 2⟩).2.1 =
      (⟨0, 1, 0, 7⟩ : memory_block) ∧
    (bucket_tree_get_rm_block_bestfit c5_bc ⟨0, 0, 0, 5⟩).1 = ENOMEM ∧
    memory_block_key ⟨0, 0, 0, 5⟩ ≤ memory_block_key ⟨0, 1, 0, 7⟩ ∧
    memory_block_key ⟨0, 1, 0, 7⟩ ∈ ctree_opt_keys c5_bc.tree := by
  have ht := c5_bc_tree
  refine ⟨by decide, by decide, ?_, ?_, ?_, by decide, ?_⟩
  · rw [bucket_tree_get_rm_block_bestfit, ht]
    decide
  · rw [bucket_tree_get_rm_block_bestfit, ht]
    decide
  · rw [bucket_tree_get_rm_block_bestfit, ht]
    decide
  · rw [ht]
    decide

/-! ## C3 and C4: the persistent backend (backend_persistent.c)

The pool image is modelled structurally: the primary header, the info
slot array, the zones (backup header plus chunk-header array) and the
data words (a WordMem addressed by pool offset).  The 28-byte payload
union of an info slot is flattened into the uint32 reserved word and
three uint64 fields f1, f2, f3, which the alloc, realloc and free
variants interpret as their respective members (f1 is
destination_addr or free_addr, f2 is old_alloc for realloc).
Modelled from the spec: util_checksum of util.c is not among the source
files; the checksum field of a header is replaced by its validity bit
csum_ok, which checksum insertion makes true and which verify_header
tests. -/

/-- Compile-time constant MAX_INFO_SLOT of backend_persistent.h. -/
def MAX_INFO_SLOT : Nat := 1024

/-- Compile-time constant MAX_CHUNK. -/
def MAX_CHUNK : Nat := 65535

/-- Compile-time constant CHUNKSIZE (256 KiB). -/
def CHUNKSIZE : Nat := 1024 * 256

/-- Compile-time constant ZONE_MIN_SIZE (32 chunks). -/
def ZONE_MIN_SIZE : Nat := 32 * CHUNKSIZE

/-- Chunk-header magic constant. -/
def CHUNK_HEADER_MAGIC : Nat := 0xC3F0

/-- The USED chunk flag. -/
def CHUNK_FLAG_USED : Nat := 0x0001

/-- Pool state OPEN of the pool_state enumeration. -/
def POOL_STATE_OPEN : Nat := 1

/-- Pool state CLOSED. -/
def POOL_STATE_CLOSED : Nat := 2

/-- Info-slot tag REALLOC of the info_slot_type enumeration. -/
def INFO_SLOT_TYPE_REALLOC : Nat := 2

/-- Enumeration bound MAX_INFO_SLOT_TYPE. -/
def MAX_INFO_SLOT_TYPE : Nat := 4

/-- Byte size of struct backend_pool_header. -/
def SIZEOF_POOL_HEADER : Nat := 1024

/-- Byte size of struct backend_info_slot. -/
def SIZEOF_INFO_SLOT : Nat := 32

/-- Byte size of struct backend_chunk_header. -/
def SIZEOF_CHUNK_HEADER : Nat := 16

/-- Byte size of struct backend_zone (backup header, chunk-header array
and chunk data). -/
def SIZEOF_ZONE : Nat :=
  SIZEOF_POOL_HEADER + SIZEOF_CHUNK_HEADER * MAX_CHUNK + CHUNKSIZE * MAX_CHUNK

/-- The 16-byte ASCII pool signature MEMORY_POOL_HDR with its
terminating NUL. -/
def POOL_SIGNATURE : List Nat :=
  [77, 69, 77, 79, 82, 89, 95, 80, 79, 79, 76, 95, 72, 68, 82, 0]

/-- On-media pool header (see the section comment about csum_ok). -/
structure backend_pool_header where
  signature : List Nat
  flags : Nat
  state : Nat
  major : Nat
  minor : Nat
  size : Nat
  chunk_size : Nat
  chunks_per_zone : Nat
  csum_ok : Bool
deriving DecidableEq

/-- On-media info slot, with the payload union flattened (see the
section comment). -/
structure backend_info_slot where
  typ : Nat
  reserved : Nat
  f1 : Nat
  f2 : Nat
  f3 : Nat
deriving DecidableEq

/-- On-media chunk header. -/
structure backend_chunk_header where
  magic : Nat
  type_specific : Nat
  typ : Nat
  flags : Nat
  size_idx : Nat
deriving DecidableEq

/-- On-media zone: backup header and chunk-header array (the chunk data
lives in the word memory of the backend). -/
structure backend_zone where
  backup_header : backend_pool_header
  chunk_header : List backend_chunk_header
deriving DecidableEq

/-- The persistent backend state: the mapped pool image together with
its size (the max_zone field of the C struct is recomputed from the
size where it is used). -/
structure backend_persistent where
  primary_header : backend_pool_header
  info_slot : List backend_info_slot
  zone : List backend_zone
  mem : WordMem
  pool_size : Nat

/-- All-zero info slot (the cleared state). -/
def zero_info_slot : backend_info_slot := ⟨0, 0, 0, 0, 0⟩

/-- Default chunk header used for reads outside the modelled arrays. -/
def default_chunk_header : backend_chunk_header := ⟨0, 0, 0, 0, 0⟩

/-- Default zone used for reads outside the modelled arrays; its backup
header never validates. -/
def default_zone : backend_zone := ⟨⟨[], 0, 0, 0, 0, 0, 0, 0, false⟩, []⟩

/-- Embedding of verify_header of backend_persistent.c: the checksum
must validate and the signature must match. -/
def verify_header (h : backend_pool_header) : Bool :=
  h.csum_ok && (h.signature == POOL_SIGNATURE)

/-- Loop body count of get_max_zones: the C while loop subtracts at
least one byte per iteration, so the raw size itself bounds the number
of iterations and serves as structural fuel. -/
def get_max_zones_go : Nat → Nat → Nat
  | 0, _ => 0
  | fuel + 1, rawsize =>
    if rawsize > ZONE_MIN_SIZE then
      1 + get_max_zones_go fuel
        (rawsize - min rawsize (SIZEOF_ZONE + MAX_CHUNK * CHUNKSIZE))
    else 0

/-- Embedding of get_max_zones of backend_persistent.c (note that the C
expression sizeof(struct backend_zone) + MAX_CHUNK * CHUNKSIZE counts
the chunk data twice; the embedding reproduces it). -/
def get_max_zones (rawsize : Nat) : Nat := get_max_zones_go rawsize rawsize

/-- Embedding of recover_primary_header: scan the backups of the first
max_zone zones and copy the first valid one over the primary. -/
def recover_primary_header (b : backend_persistent) :
    Bool × backend_persistent :=
  match (List.range (get_max_zones b.pool_size)).find?
      (fun i => verify_header (b.zone.getD i default_zone).backup_header) with
  | some i =>
    (true, { b with primary_header := (b.zone.getD i default_zone).backup_header })
  | none => (false, b)

/-- Embedding of zero_info_slots. -/
def zero_info_slots (b : backend_persistent) : backend_persistent :=
  { b with info_slot := b.info_slot.map (fun _ => zero_info_slot) }

/-- Embedding of write_primary_pool_header: a fresh CLOSED header with
the build constants and an inserted (valid) checksum. -/
def write_primary_pool_header (b : backend_persistent) : backend_persistent :=
  { b with primary_header :=
    ⟨POOL_SIGNATURE, 0, POOL_STATE_CLOSED, 1, 0, b.pool_size, CHUNKSIZE,
      MAX_CHUNK, true⟩ }

/-- Embedding of write_backup_pool_headers: copy the primary header
into the backup of every zone below max_zone. -/
def write_backup_pool_headers (b : backend_persistent) : backend_persistent :=
  { b with zone := b.zone.mapIdx (fun i z =>
      if i < get_max_zones b.pool_size then
        { z with backup_header := b.primary_header }
      else z) }

/-- Embedding of write_pool_layout. -/
def write_pool_layout (b : backend_persistent) : backend_persistent :=
  write_backup_pool_headers (write_primary_pool_header (zero_info_slots b))

/-- Embedding of get_pool_state. -/
def get_pool_state (b : backend_persistent) : Nat := b.primary_header.state

/-- Embedding of set_pool_state: update the state, reinsert the
checksum into the primary and waterfall into the backups. -/
def set_pool_state (b : backend_persistent) (state : Nat) :
    backend_persistent :=
  write_backup_pool_headers
    { b with primary_header :=
      { b.primary_header with state := state, csum_ok := true } }

/-- Embedding of can_open_pool: size, major and the two build constants
must match. -/
def can_open_pool (b : backend_persistent) : Bool :=
  let h := b.primary_header
  h.size == b.pool_size && h.major == 1 && h.chunk_size == CHUNKSIZE &&
    h.chunks_per_zone == MAX_CHUNK

/-- Embedding of get_chunk_by_offset of backend_persistent.c: layout
arithmetic from a data offset to the owning (zone, chunk) indexes; the
two uint16 outputs truncate modulo 2 ^ 16. -/
def get_chunk_by_offset (_b : backend_persistent) (data_offset : Nat) :
    Nat × Nat :=
  let d := data_offset -
    (SIZEOF_POOL_HEADER + SIZEOF_INFO_SLOT * MAX_INFO_SLOT)
  let max_zone_size := SIZEOF_POOL_HEADER +
    SIZEOF_CHUNK_HEADER * MAX_CHUNK + CHUNKSIZE * MAX_CHUNK
  let zone_idx := d / max_zone_size % 2 ^ 16
  let zone_offset := d - zone_idx * max_zone_size - SIZEOF_POOL_HEADER -
    SIZEOF_CHUNK_HEADER * MAX_CHUNK
  (zone_idx, zone_offset / CHUNKSIZE % 2 ^ 16)

/-- Embedding of clear_chunk_flag: a no-op returning false when the
flag is already clear, otherwise persistently clears it (flags is
uint16, so the C complement of the flag is its xor with 0xFFFF). -/
def clear_chunk_flag (b : backend_persistent) (zi ci flag : Nat) :
    Bool × backend_persistent :=
  let z := b.zone.getD zi default_zone
  let c := z.chunk_header.getD ci default_chunk_header
  if c.flags &&& flag = 0 then (false, b)
  else
    let c' := { c with flags := c.flags &&& (0xFFFF ^^^ flag) }
    let z' := { z with chunk_header := z.chunk_header.set ci c' }
    (true, { b with zone := b.zone.set zi z' })

/-- Embedding of set_chunk_flag: a no-op returning false when the flag
is already set, otherwise persistently sets it. -/
def set_chunk_flag (b : backend_persistent) (zi ci flag : Nat) :
    Bool × backend_persistent :=
  let z := b.zone.getD zi default_zone
  let c := z.chunk_header.getD ci default_chunk_header
  if c.flags &&& flag ≠ 0 then (false, b)
  else
    let c' := { c with flags := c.flags ||| flag }
    let z' := { z with chunk_header := z.chunk_header.set ci c' }
    (true, { b with zone := b.zone.set zi z' })

/-- Embedding of recover_slot_unknown: clear the slot. -/
def recover_slot_unknown (b : backend_persistent) (i : Nat) :
    backend_persistent :=
  { b with info_slot := b.info_slot.set i zero_info_slot }

/-- Embedding of recover_slot_alloc: when the destination word is set,
clear USED on the owning chunk and zero the destination (NULL_OFFSET is
zero); always clear the slot. -/
def recover_slot_alloc (b : backend_persistent) (i : Nat) :
    backend_persistent :=
  let slot := b.info_slot.getD i zero_info_slot
  let v := b.mem slot.f1
  let b1 :=
    if v ≠ 0 then
      let zc := get_chunk_by_offset b v
      let b2 := (clear_chunk_flag b zc.1 zc.2 CHUNK_FLAG_USED).2
      { b2 with mem := memUpdate b2.mem slot.f1 0 }
    else b
  { b1 with info_slot := b1.info_slot.set i zero_info_slot }

/-- Embedding of recover_slot_realloc of backend_persistent.c lines
323-344: only when the destination word is set, the recorded old value
is set, and the two differ, clear USED on the chunk owning the new
value and restore the destination to the old value; always clear the
slot. -/
def recover_slot_realloc (b : backend_persistent) (i : Nat) :
    backend_persistent :=
  let slot := b.info_slot.getD i zero_info_slot
  let v := b.mem slot.f1
  let b1 :=
    if v ≠ 0 ∧ slot.f2 ≠ 0 ∧ v ≠ slot.f2 then
      let zc := get_chunk_by_offset b v
      let b2 := (clear_chunk_flag b zc.1 zc.2 CHUNK_FLAG_USED).2
      { b2 with mem := memUpdate b2.mem slot.f1 slot.f2 }
    else b
  { b1 with info_slot := b1.info_slot.set i zero_info_slot }

/-- Embedding of recover_slot_free: when the freed word is still set,
re-set USED on the owning chunk; always clear the slot. -/
def recover_slot_free (b : backend_persistent) (i : Nat) :
    backend_persistent :=
  let slot := b.info_slot.getD i zero_info_slot
  let v := b.mem slot.f1
  let b1 :=
    if v ≠ 0 then
      let zc := get_chunk_by_offset b v
      (set_chunk_flag b zc.1 zc.2 CHUNK_FLAG_USED).2
    else b
  { b1 with info_slot := b1.info_slot.set i zero_info_slot }

/-- Embedding of recover_info_slot of backend_persistent.c lines
379-395: dispatch on the slot tag, but only when the slot is not
entirely empty (an asserted tag outside the enumeration is modelled as
leaving the state unchanged). -/
def recover_info_slot (b : backend_persistent) (i : Nat) :
    backend_persistent :=
  let slot := b.info_slot.getD i zero_info_slot
  if slot.typ ≠ 0 ∨
      ¬(slot.reserved = 0 ∧ slot.f1 = 0 ∧ slot.f2 = 0 ∧ slot.f3 = 0) then
    if slot.typ = 0 then recover_slot_unknown b i
    else if slot.typ = 1 then recover_slot_alloc b i
    else if slot.typ = 2 then recover_slot_realloc b i
    else if slot.typ = 3 then recover_slot_free b i
    else b
  else b

/-- Embedding of open_pmem_storage of backend_persistent.c lines
451-497: validate or recover the primary header; with no valid header
anywhere, write a fresh pool layout; then dispatch on the pool state —
a CLOSED pool is switched to OPEN, an OPEN pool has its info slots
recovered and backups rewritten; both succeed. -/
def open_pmem_storage (b : backend_persistent) :
    Bool × backend_persistent :=
  let step :=
    if verify_header b.primary_header then (true, b)
    else recover_primary_header b
  let continue_open := fun (b1 : backend_persistent) =>
    if get_pool_state b1 = POOL_STATE_CLOSED then
      (true, set_pool_state b1 POOL_STATE_OPEN)
    else if get_pool_state b1 = POOL_STATE_OPEN then
      (true, write_backup_pool_headers
        ((List.range MAX_INFO_SLOT).foldl recover_info_slot b1))
    else (false, b1)
  if step.1 then
    if ¬ can_open_pool step.2 then (false, step.2)
    else continue_open step.2
  else continue_open (write_pool_layout step.2)

/-- Embedding of get_zone_size_idx: full zones hold MAX_CHUNK chunks,
the last zone holds whatever chunks fit in the remaining bytes. -/
def get_zone_size_idx (zone_idx max_zone pool_size : Nat) : Nat :=
  if zone_idx < max_zone - 1 then MAX_CHUNK
  else ((pool_size - zone_idx * SIZEOF_ZONE) -
    (SIZEOF_POOL_HEADER + SIZEOF_CHUNK_HEADER * MAX_CHUNK)) / CHUNKSIZE

/-- Enumeration bound MAX_CHUNK_TYPE of the chunk_type enumeration. -/
def MAX_CHUNK_TYPE : Nat := 4

/-- Walk of check_zone over the chunk headers; the step is at least one
chunk, so the zone size index is enough fuel.  An untouched first
header (wrong magic at index 0) passes, a wrong magic later fails, and
the covered sizes must tile the zone exactly. -/
def check_zone_go (hdrs : List backend_chunk_header) (size_idx : Nat) :
    Nat → Nat → Bool
  | 0, i => i == size_idx
  | fuel + 1, i =>
    if i < size_idx then
      let c := hdrs.getD i default_chunk_header
      if c.magic ≠ CHUNK_HEADER_MAGIC then decide (i = 0)
      else if c.typ > MAX_CHUNK_TYPE ∨ c.typ = 0 then false
      else if c.size_idx > size_idx then false
      else if c.size_idx = 0 then false
      else check_zone_go hdrs size_idx fuel (i + c.size_idx)
    else i == size_idx

/-- Embedding of check_zone of backend_persistent.c. -/
def check_zone (zones : List backend_zone) (id size_idx : Nat) : Bool :=
  check_zone_go (zones.getD id default_zone).chunk_header size_idx size_idx 0

/-- Embedding of check_slot_unknown: anything goes. -/
def check_slot_unknown (_slot : backend_info_slot) (_pool_size : Nat) : Bool :=
  true

/-- Embedding of check_slot_alloc: reserved words must be zero and the
destination must lie inside the pool. -/
def check_slot_alloc (slot : backend_info_slot) (pool_size : Nat) : Bool :=
  if slot.reserved ≠ 0 ∨ slot.f2 ≠ 0 ∨ slot.f3 ≠ 0 then false
  else if slot.f1 > pool_size then false
  else true

/-- Embedding of check_slot_realloc. -/
def check_slot_realloc (slot : backend_info_slot) (pool_size : Nat) : Bool :=
  if slot.reserved ≠ 0 ∨ slot.f3 ≠ 0 then false
  else if slot.f1 > pool_size then false
  else if slot.f2 > pool_size then false
  else true

/-- Embedding of check_slot_free. -/
def check_slot_free (slot : backend_info_slot) (pool_size : Nat) : Bool :=
  if slot.reserved ≠ 0 ∨ slot.f2 ≠ 0 ∨ slot.f3 ≠ 0 then false
  else if slot.f1 > pool_size then false
  else true

/-- Embedding of check_info_slot: reject tags outside the enumeration,
otherwise dispatch. -/
def check_info_slot (slots : List backend_info_slot) (id pool_size : Nat) :
    Bool :=
  let slot := slots.getD id zero_info_slot
  if slot.typ ≥ MAX_INFO_SLOT_TYPE then false
  else if slot.typ = 0 then check_slot_unknown slot pool_size
  else if slot.typ = 1 then check_slot_alloc slot pool_size
  else if slot.typ = 2 then check_slot_realloc slot pool_size
  else check_slot_free slot pool_size

/-- Embedding of backend_persistent_consistency_check of
backend_persistent.c lines 807-844: a single valid header, primary or
any backup, is enough for the header part; all info slots and zones
must check out; the result is the conjunction. -/
def backend_persistent_consistency_check (b : backend_persistent)
    (size : Nat) : Bool :=
  let valid0 := verify_header b.primary_header
  let ok0 := (List.range MAX_INFO_SLOT).foldl
    (fun ok i => ok && check_info_slot b.info_slot i size) true
  let max_zone := get_max_zones size
  let r := (List.range max_zone).foldl
    (fun acc i =>
      (acc.1 && check_zone b.zone i (get_zone_size_idx i max_zone size),
       acc.2 || verify_header (b.zone.getD i default_zone).backup_header))
    (ok0, valid0)
  r.1 && r.2

/-- Accumulated header validity of the consistency-check zone loop
stays false when every backup fails to verify. -/
theorem foldl_or_false {α : Type} (g h : α → Bool) (l : List α) :
    ∀ acc : Bool × Bool, acc.2 = false → (∀ i ∈ l, g i = false) →
    ((l.foldl (fun acc i => (acc.1 && h i, acc.2 || g i)) acc).2 = false) := by
  induction l with
  | nil => intro acc h2 _; exact h2
  | cons x xs ih =>
    intro acc h2 hall
    rw [List.foldl_cons]
    refine ih _ ?_ (fun i hi => hall i (List.mem_cons_of_mem x hi))
    rw [h2, hall x (List.mem_cons_self x xs)]
    rfl

/-- A header that is invalid everywhere in a zone list is invalid at
every index read with a default. -/
theorem getD_backup_invalid (b : backend_persistent)
    (hz : ∀ z ∈ b.zone, verify_header z.backup_header = false) (i : Nat) :
    verify_header (b.zone.getD i default_zone).backup_header = false := by
  by_cases hi : i < b.zone.length
  · rw [List.getD_eq_getElem b.zone default_zone hi]
    exact hz _ (List.getElem_mem hi)
  · rw [List.getD_eq_default b.zone default_zone (le_of_not_lt hi)]
    rfl

/-- C3 amended: a pool image in which neither the primary header nor
any zone backup checksum-validates is not rejected by open — 
open_pmem_storage treats it as a fresh pool, writes a new layout
(zeroed info slots, fresh primary header) and returns success with the
pool switched to OPEN.  Only the explicit consistency-check entry
point reports the image as inconsistent. -/
theorem c3_open_rewrites_invalid_pool (b : backend_persistent) (size : Nat)
    (hp : verify_header b.primary_header = false)
    (hz : ∀ z ∈ b.zone, verify_header z.backup_header = false) :
    (open_pmem_storage b).1 = true ∧
    (open_pmem_storage b).2.primary_header.state = POOL_STATE_OPEN ∧
    (open_pmem_storage b).2.primary_header.signature = POOL_SIGNATURE ∧
    (open_pmem_storage b).2.info_slot =
      b.info_slot.map (fun _ => zero_info_slot) ∧
    backend_persistent_consistency_check b size = false := by
  have hrec : recover_primary_header b = (false, b) := by
    rw [recover_primary_header]
    have hnone : (List.range (get_max_zones b.pool_size)).find?
        (fun i => verify_header (b.zone.getD i default_zone).backup_header) =
        none := by
      rw [List.find?_eq_none]
      intro i _
      rw [getD_backup_invalid b hz i]
      exact Bool.false_ne_true
    rw [hnone]
  have hopen : open_pmem_storage b =
      (true, set_pool_state (write_pool_layout b) POOL_STATE_OPEN) := by
    rw [open_pmem_storage, hp, hrec]
    have hstate : get_pool_state (write_pool_layout b) = POOL_STATE_CLOSED :=
      rfl
    simp only [Bool.false_eq_true, if_false, hstate]
    rfl
  have hcheck : backend_persistent_consistency_check b size = false := by
    rw [backend_persistent_consistency_check]
    have hv := foldl_or_false
      (fun i => verify_header (b.zone.getD i default_zone).backup_header)
      (fun i => check_zone b.zone i
        (get_zone_size_idx i (get_max_zones size) size))
      (List.range (get_max_zones size))
      ((List.range MAX_INFO_SLOT).foldl
        (fun ok i => ok && check_info_slot b.info_slot i size) true,
        verify_header b.primary_header)
      hp (fun i _ => getD_backup_invalid b hz i)
    rw [hv, Bool.and_false]
  refine ⟨?_, ?_, ?_, ?_, hcheck⟩ <;> rw [hopen] <;> rfl

/-- All-invalid pool header used by the open counterexample. -/
def c3_bad_header : backend_pool_header := ⟨[], 0, 0, 0, 0, 0, 0, 0, false⟩

/-- Ten-megabyte single-zone pool image none of whose headers
validate. -/
def c3_pool : backend_persistent :=
  ⟨c3_bad_header, [], [⟨c3_bad_header, []⟩], fun _ => 0, 10485760⟩

set_option maxRecDepth 200000 in
/-- C3 counterexample: on a concrete pool image where neither the
primary header nor the only zone backup checksum-validates, open does
not fail with PoolCorrupt — it succeeds (returns true, reinitializing
the layout) — while the explicit consistency check returns false. -/
theorem c3_pool_corrupt_counterexample :
    verify_header c3_pool.primary_header = false ∧
    (∀ z ∈ c3_pool.zone, verify_header z.backup_header = false) ∧
    (open_pmem_storage c3_pool).1 = true ∧
    backend_persistent_consistency_check c3_pool 10485760 = false := by
  refine ⟨by decide, by decide, by decide, by decide⟩

/-- Concrete instance of the amended open behavior on the same
image. -/
theorem c3_open_rewrites_invalid_pool_witness :
    verify_header c3_pool.primary_header = false ∧
    ((open_pmem_storage c3_pool).1 = true ∧
    (open_pmem_storage c3_pool).2.primary_header.state = POOL_STATE_OPEN ∧
    (open_pmem_storage c3_pool).2.primary_header.signature = POOL_SIGNATURE ∧
    (open_pmem_storage c3_pool).2.info_slot =
      c3_pool.info_slot.map (fun _ => zero_info_slot) ∧
    backend_persistent_consistency_check c3_pool 16777216 = false) :=
  ⟨by decide, c3_open_rewrites_invalid_pool c3_pool 16777216 (by decide)
    (by decide)⟩

/-- Reading back an in-bounds list update with a default. -/
theorem list_getD_set_self {α : Type _} (l : List α) (i : Nat) (a d : α)
    (h : i < l.length) : (l.set i a).getD i d = a := by
  rw [List.getD_eq_getElem (l.set i a) d (by rw [List.length_set]; exact h)]
  exact List.getElem_set_self _

/-- clear_chunk_flag never touches the info slots. -/
theorem clear_chunk_flag_info_slot (b : backend_persistent) (zi ci f : Nat) :
    ((clear_chunk_flag b zi ci f).2).info_slot = b.info_slot := by
  rw [clear_chunk_flag]
  split_ifs <;> rfl

/-- clear_chunk_flag never touches the data words. -/
theorem clear_chunk_flag_mem (b : backend_persistent) (zi ci f : Nat) :
    ((clear_chunk_flag b zi ci f).2).mem = b.mem := by
  rw [clear_chunk_flag]
  split_ifs <;> rfl

/-- After clear_chunk_flag the USED bit of the addressed chunk header
is clear, whether or not it was set before. -/
theorem clear_chunk_flag_clears (b : backend_persistent) (zi ci : Nat) :
    ((((clear_chunk_flag b zi ci CHUNK_FLAG_USED).2).zone.getD zi
      default_zone).chunk_header.getD ci default_chunk_header).flags &&&
      CHUNK_FLAG_USED = 0 := by
  rw [clear_chunk_flag]
  split_ifs with h
  · exact h
  · have hzi : zi < b.zone.length := by
      by_contra hn
      rw [List.getD_eq_default b.zone default_zone (le_of_not_lt hn)] at h
      exact h (by simp [default_zone, default_chunk_header, CHUNK_FLAG_USED])
    have hci : ci < (b.zone.getD zi default_zone).chunk_header.length := by
      by_contra hn
      rw [List.getD_eq_default _ default_chunk_header (le_of_not_lt hn)] at h
      exact h (by decide)
    rw [list_getD_set_self _ _ _ _ hzi, list_getD_set_self _ _ _ _ hci]
    have hm : ((0xFFFF : Nat) ^^^ CHUNK_FLAG_USED) &&& CHUNK_FLAG_USED = 0 := by
      decide
    rw [Nat.and_assoc, hm, Nat.and_zero]

/-- C4 amended: recovery of a REALLOC info slot restores the
destination and clears USED on the chunk owning the new value only
when the destination word is nonzero, the recorded old value is
nonzero, and the two differ (the claim omits the old-value condition);
in every other slot state the data words and the chunk headers are left
alone; the slot itself is always cleared. -/
theorem c4_recover_slot_realloc_amended (b : backend_persistent) (i : Nat)
    (htyp : (b.info_slot.getD i zero_info_slot).typ = INFO_SLOT_TYPE_REALLOC) :
    recover_info_slot b i = recover_slot_realloc b i ∧
    (recover_slot_realloc b i).info_slot = b.info_slot.set i zero_info_slot ∧
    (¬(b.mem (b.info_slot.getD i zero_info_slot).f1 ≠ 0 ∧
        (b.info_slot.getD i zero_info_slot).f2 ≠ 0 ∧
        b.mem (b.info_slot.getD i zero_info_slot).f1 ≠
          (b.info_slot.getD i zero_info_slot).f2) →
      (recover_slot_realloc b i).mem = b.mem ∧
      (recover_slot_realloc b i).zone = b.zone) ∧
    ((b.mem (b.info_slot.getD i zero_info_slot).f1 ≠ 0 ∧
        (b.info_slot.getD i zero_info_slot).f2 ≠ 0 ∧
        b.mem (b.info_slot.getD i zero_info_slot).f1 ≠
          (b.info_slot.getD i zero_info_slot).f2) →
      (recover_slot_realloc b i).mem
          (b.info_slot.getD i zero_info_slot).f1 =
        (b.info_slot.getD i zero_info_slot).f2 ∧
      (∀ o, o ≠ (b.info_slot.getD i zero_info_slot).f1 →
        (recover_slot_realloc b i).mem o = b.mem o) ∧
      (((recover_slot_realloc b i).zone.getD
          (get_chunk_by_offset b
            (b.mem (b.info_slot.getD i zero_info_slot).f1)).1
          default_zone).chunk_header.getD
          (get_chunk_by_offset b
            (b.mem (b.info_slot.getD i zero_info_slot).f1)).2
          default_chunk_header).flags &&& CHUNK_FLAG_USED = 0) := by
  refine ⟨?_, ?_, ?_, ?_⟩
  · rw [recover_info_slot]
    simp only [htyp, INFO_SLOT_TYPE_REALLOC]
    norm_num
  · simp only [recover_slot_realloc]
    by_cases hcond : b.mem (b.info_slot.getD i zero_info_slot).f1 ≠ 0 ∧
        (b.info_slot.getD i zero_info_slot).f2 ≠ 0 ∧
        b.mem (b.info_slot.getD i zero_info_slot).f1 ≠
          (b.info_slot.getD i zero_info_slot).f2
    · rw [if_pos hcond]
      simp only [clear_chunk_flag_info_slot]
    · rw [if_neg hcond]
  · intro hncond
    simp only [recover_slot_realloc]
    rw [if_neg hncond]
    exact ⟨rfl, rfl⟩
  · intro hcond
    simp only [recover_slot_realloc]
    rw [if_pos hcond]
    refine ⟨?_, ?_, ?_⟩
    · simp [memUpdate]
    · intro o ho
      simp only [memUpdate, if_neg ho, clear_chunk_flag_mem]
    · exact clear_chunk_flag_clears b _ _

/-- REALLOC info slot of the counterexample: destination offset 40,
recorded old value 0. -/
def c4_slot : backend_info_slot := ⟨2, 0, 40, 0, 0⟩

/-- Pool image for the counterexample: the destination word holds a
chunk-0 data offset and the owning chunk header has USED set. -/
def c4_pool : backend_persistent :=
  ⟨c3_bad_header, [c4_slot], [⟨c3_bad_header, [⟨0xC3F0, 0, 1, 1, 1⟩]⟩],
    fun o => if o = 40 then 1083376 else 0, 10485760⟩

/-- C4 counterexample: a REALLOC slot whose destination word is nonzero
and differs from the recorded old value of zero.  The claim demands
that recovery clear USED and restore the destination to the old value;
the code, because it additionally requires old to be nonzero, leaves
the word and the chunk flags untouched and only clears the slot. -/
theorem c4_recover_slot_realloc_counterexample :
    c4_pool.mem 40 = 1083376 ∧
    (c4_pool.info_slot.getD 0 zero_info_slot).typ = INFO_SLOT_TYPE_REALLOC ∧
    (c4_pool.info_slot.getD 0 zero_info_slot).f1 = 40 ∧
    (c4_pool.info_slot.getD 0 zero_info_slot).f2 = 0 ∧
    (1083376 : Nat) ≠ (c4_pool.info_slot.getD 0 zero_info_slot).f2 ∧
    (recover_info_slot c4_pool 0).mem 40 = 1083376 ∧
    (recover_info_slot c4_pool 0).zone = c4_pool.zone ∧
    (recover_info_slot c4_pool 0).info_slot = [zero_info_slot] := by
  refine ⟨by decide, by decide, by decide, by decide, by decide, by decide,
    by decide, by decide⟩

/-- Pool image for the amended witness: same layout, but the slot
records old value 99, so recovery takes the restoring branch. -/
def c4_pool2 : backend_persistent :=
  ⟨c3_bad_header, [⟨2, 0, 40, 99, 0⟩], [⟨c3_bad_header, [⟨0xC3F0, 0, 1, 1, 1⟩]⟩],
    fun o => if o = 40 then 1083376 else 0, 10485760⟩

/-- Concrete instance of the amended REALLOC recovery behavior. -/
theorem c4_recover_slot_realloc_amended_witness :
    (c4_pool2.info_slot.getD 0 zero_info_slot).typ = INFO_SLOT_TYPE_REALLOC ∧
    (recover_info_slot c4_pool2 0 = recover_slot_realloc c4_pool2 0 ∧
    (recover_slot_realloc c4_pool2 0).info_slot =
      c4_pool2.info_slot.set 0 zero_info_slot ∧
    (¬(c4_pool2.mem (c4_pool2.info_slot.getD 0 zero_info_slot).f1 ≠ 0 ∧
        (c4_pool2.info_slot.getD 0 zero_info_slot).f2 ≠ 0 ∧
        c4_pool2.mem (c4_pool2.info_slot.getD 0 zero_info_slot).f1 ≠
          (c4_pool2.info_slot.getD 0 zero_info_slot).f2) →
      (recover_slot_realloc c4_pool2 0).mem = c4_pool2.mem ∧
      (recover_slot_realloc c4_pool2 0).zone = c4_pool2.zone) ∧
    ((c4_pool2.mem (c4_pool2.info_slot.getD 0 zero_info_slot).f1 ≠ 0 ∧
        (c4_pool2.info_slot.getD 0 zero_info_slot).f2 ≠ 0 ∧
        c4_pool2.mem (c4_pool2.info_slot.getD 0 zero_info_slot).f1 ≠
          (c4_pool2.info_slot.getD 0 zero_info_slot).f2) →
      (recover_slot_realloc c4_pool2 0).mem
          (c4_pool2.info_slot.getD 0 zero_info_slot).f1 =
        (c4_pool2.info_slot.getD 0 zero_info_slot).f2 ∧
      (∀ o, o ≠ (c4_pool2.info_slot.getD 0 zero_info_slot).f1 →
        (recover_slot_realloc c4_pool2 0).mem o = c4_pool2.mem o) ∧
      (((recover_slot_realloc c4_pool2 0).zone.getD
          (get_chunk_by_offset c4_pool2
            (c4_pool2.mem (c4_pool2.info_slot.getD 0 zero_info_slot).f1)).1
          default_zone).chunk_header.getD
          (get_chunk_by_offset c4_pool2
            (c4_pool2.mem (c4_pool2.info_slot.getD 0 zero_info_slot).f1)).2
          default_chunk_header).flags &&& CHUNK_FLAG_USED = 0)) :=
  ⟨by decide, c4_recover_slot_realloc_amended c4_pool2 0 (by decide)⟩

/-! ## C6, C7 and C8: allocator entry points (pmalloc.c)

The heap and lane collaborators called by pmalloc.c (heap_get_bestfit_block,
heap_get_auxiliary_bucket, heap_drain_to_auxiliary, heap_get_adjacent_free_block,
heap_get_exact_block, heap_free_block, lane_hold and friends) are not
among the source files; they are abstracted as explicit parameters of
the embeddings.  Modelled from the spec: a failing collaborator
propagates its error without partial state change (section 7 of the
specification), so a failed best-fit lookup returns the volatile state
unchanged and the durable state is typed so that only persist_alloc can
modify it.  The redo-log stores and the container operations performed
by the entry points are recorded in an explicit action trace. -/

/-- Bucket kinds of bucket.h: the single huge bucket or a run
bucket. -/
inductive bucket_type where
  | huge
  | run
deriving DecidableEq

/-- The bucket data pmalloc.c reads: its kind and unit size. -/
structure pm_bucket where
  btype : bucket_type
  unit_size : Nat
deriving DecidableEq

/-- Embedding of bucket_calc_units of bucket.c, installed as
b->calc_units: the number of units needed for a byte size. -/
def bucket_calc_units (b : pm_bucket) (size : Nat) : Nat :=
  (size - 1) / b.unit_size + 1

/-- Collaborators of pmalloc_construct (see the section comment).  The
volatile heap state has type V, the durable image type D; bestfit
returns none for ENOMEM. -/
structure pmalloc_env (V D : Type) where
  lane_hold : Option Nat
  best_bucket : V → Nat → pm_bucket
  aux_bucket : V → Nat → pm_bucket
  bestfit : V → pm_bucket → memory_block → Option (memory_block × V)
  drain_to_aux : V → pm_bucket → Nat → V
  persist_alloc : V → D → memory_block → Nat → Nat → Nat × V × D × Nat

/-- Outcome of pmalloc_construct: error code, volatile and durable
states, the off-slot value, the sequence of buckets handed to
heap_get_bestfit_block, and whether persist_alloc ran. -/
structure pmalloc_result (V D : Type) where
  err : Nat
  vol : V
  dur : D
  off : Nat
  attempts : List pm_bucket
  persisted : Bool

/-- Embedding of pmalloc_construct of pmalloc.c lines 178-238: take a
lane, pick the best bucket and compute the unit count; on ENOMEM from a
huge bucket give up at once; otherwise retry on the auxiliary bucket,
then drain the per-lane caches into it and retry exactly once more;
only a successful reservation reaches persist_alloc. -/
def pmalloc_construct {V D : Type} (env : pmalloc_env V D) (v : V) (dur : D)
    (off : Nat) (size : Nat) : pmalloc_result V D :=
  match env.lane_hold with
  | some err => ⟨err, v, dur, off, [], false⟩
  | none =>
    let b := env.best_bucket v size
    let m0 : memory_block := ⟨0, 0, 0, bucket_calc_units b size⟩
    match env.bestfit v b m0 with
    | some (m, v1) =>
      let r := env.persist_alloc v1 dur m (b.unit_size * m.size_idx) off
      ⟨r.1, r.2.1, r.2.2.1, r.2.2.2, [b], true⟩
    | none =>
      if b.btype = bucket_type.huge then ⟨ENOMEM, v, dur, off, [b], false⟩
      else
        let b2 := env.aux_bucket v size
        match env.bestfit v b2 m0 with
        | some (m, v1) =>
          let r := env.persist_alloc v1 dur m (b2.unit_size * m.size_idx) off
          ⟨r.1, r.2.1, r.2.2.1, r.2.2.2, [b, b2], true⟩
        | none =>
          let v2 := env.drain_to_aux v b2 m0.size_idx
          match env.bestfit v2 b2 m0 with
          | some (m, v3) =>
            let r := env.persist_alloc v3 dur m (b2.unit_size * m.size_idx) off
            ⟨r.1, r.2.1, r.2.2.1, r.2.2.2, [b, b2, b2], true⟩
          | none => ⟨ENOMEM, v2, dur, off, [b, b2, b2], false⟩

/-- C6: the allocation failure and retry policy.  When the first
best-fit lookup fails on the huge bucket, ENOMEM is returned at once
after that single attempt; when it fails on a run bucket, the auxiliary
bucket is tried, the caches are drained and the auxiliary bucket is
retried exactly once more before ENOMEM; in both out-of-memory outcomes
the off slot and the durable image are returned unchanged and
persist_alloc never ran. -/
theorem c6_pmalloc_construct_oom_policy {V D : Type} (env : pmalloc_env V D)
    (v : V) (dur : D) (off size : Nat)
    (hlane : env.lane_hold = none) :
    (env.bestfit v (env.best_bucket v size)
        ⟨0, 0, 0, bucket_calc_units (env.best_bucket v size) size⟩ = none →
      ((env.best_bucket v size).btype = bucket_type.huge →
        pmalloc_construct env v dur off size =
          ⟨ENOMEM, v, dur, off, [env.best_bucket v size], false⟩) ∧
      ((env.best_bucket v size).btype ≠ bucket_type.huge →
        env.bestfit v (env.aux_bucket v size)
          ⟨0, 0, 0, bucket_calc_units (env.best_bucket v size) size⟩ = none →
        env.bestfit
          (env.drain_to_aux v (env.aux_bucket v size)
            (bucket_calc_units (env.best_bucket v size) size))
          (env.aux_bucket v size)
          ⟨0, 0, 0, bucket_calc_units (env.best_bucket v size) size⟩ = none →
        pmalloc_construct env v dur off size =
          ⟨ENOMEM,
            env.drain_to_aux v (env.aux_bucket v size)
              (bucket_calc_units (env.best_bucket v size) size),
            dur, off,
            [env.best_bucket v size, env.aux_bucket v size,
              env.aux_bucket v size], false⟩)) := by
  intro h1
  constructor
  · intro hhuge
    rw [pmalloc_construct, hlane]
    simp only [h1, hhuge, if_true]
  · intro hrun h2 h3
    rw [pmalloc_construct, hlane]
    simp only [h1, h2, h3]
    rw [if_neg hrun]

/-- Collaborator instantiation for the retry-policy witness: a heap
with nothing to offer. -/
def c6_env : pmalloc_env Unit Unit :=
  ⟨none, fun _ _ => ⟨bucket_type.run, 128⟩, fun _ _ => ⟨bucket_type.run, 256⟩,
    fun _ _ _ => none, fun v _ _ => v, fun v d _ _ o => (0, v, d, o)⟩

/-- Concrete instance of the retry policy: with every best-fit lookup
failing on a run-class request, the attempts are exactly the lane
bucket, the auxiliary bucket, and the auxiliary bucket once more after
the drain, and the result is ENOMEM with nothing persisted. -/
theorem c6_pmalloc_construct_oom_policy_witness :
    c6_env.lane_hold = none ∧
    (c6_env.bestfit () (c6_env.best_bucket () 100)
        ⟨0, 0, 0, bucket_calc_units (c6_env.best_bucket () 100) 100⟩ = none →
      ((c6_env.best_bucket () 100).btype = bucket_type.huge →
        pmalloc_construct c6_env () () 7 100 =
          ⟨ENOMEM, (), (), 7, [c6_env.best_bucket () 100], false⟩) ∧
      ((c6_env.best_bucket () 100).btype ≠ bucket_type.huge →
        c6_env.bestfit () (c6_env.aux_bucket () 100)
          ⟨0, 0, 0, bucket_calc_units (c6_env.best_bucket () 100) 100⟩ = none →
        c6_env.bestfit
          (c6_env.drain_to_aux () (c6_env.aux_bucket () 100)
            (bucket_calc_units (c6_env.best_bucket () 100) 100))
          (c6_env.aux_bucket () 100)
          ⟨0, 0, 0, bucket_calc_units (c6_env.best_bucket () 100) 100⟩ = none →
        pmalloc_construct c6_env () () 7 100 =
          ⟨ENOMEM,
            c6_env.drain_to_aux () (c6_env.aux_bucket () 100)
              (bucket_calc_units (c6_env.best_bucket () 100) 100),
            (), 7,
            [c6_env.best_bucket () 100, c6_env.aux_bucket () 100,
              c6_env.aux_bucket () 100], false⟩)) :=
  ⟨rfl, c6_pmalloc_construct_oom_policy c6_env () () 7 100 rfl⟩

/-- Collaborators of prealloc_construct: the bucket owning the block's
chunk, the allocation-header size of the block behind the off slot, the
lane and run-lock outcomes, the right-neighbor lookup, the exact
container removal and the heap_coalesce outputs. -/
structure prealloc_env (V : Type) where
  lane_hold : Option Nat
  chunk_bucket : pm_bucket
  alloc_size : Nat
  lock_err : Option Nat
  adjacent : Except Nat memory_block
  get_exact : V → memory_block → Nat → Except Nat V
  coalesce_hdr : Nat
  coalesce_result : Nat

/-- Observable operations performed by prealloc_construct. -/
inductive prealloc_action where
  | remove_exact (m : memory_block) (units : Nat)
  | redo_set_alloc_size (v : Nat)
  | redo_set_header (loc v : Nat)
  | redo_process
deriving DecidableEq

/-- Embedding of prealloc_construct of pmalloc.c lines 261-342: a
request within the current usable size returns 0 untouched; a growing
request is served only by consuming a sufficiently large free right
neighbor (exact container removal, then a redo SET of the header size
and of the coalesced chunk header); with no such neighbor the function
fails (ENOMEM when the neighbor is too small) — there is no
allocate-copy-free path anywhere in the function. -/
def prealloc_construct {V : Type} (env : prealloc_env V) (v : V)
    (size : Nat) : Nat × V × List prealloc_action :=
  if size ≤ env.alloc_size then (0, v, [])
  else
    match env.lane_hold with
    | some err => (err, v, [])
    | none =>
      let b := env.chunk_bucket
      let add_size_idx := bucket_calc_units b (size - env.alloc_size)
      let new_size_idx := bucket_calc_units b size
      let real_size := new_size_idx * b.unit_size
      match env.lock_err with
      | some err => (err, v, [])
      | none =>
        match env.adjacent with
        | .error err => (err, v, [])
        | .ok next =>
          if next.size_idx < add_size_idx then (ENOMEM, v, [])
          else
            match env.get_exact v next add_size_idx with
            | .error err => (err, v, [])
            | .ok v1 =>
              (0, v1,
                [.remove_exact next add_size_idx,
                 .redo_set_alloc_size real_size,
                 .redo_set_header env.coalesce_hdr env.coalesce_result,
                 .redo_process])

/-- C7 amended: the three actual cases of prealloc_construct.  A
non-growing request is a no-op returning 0; a growing request with a
sufficiently large free right neighbor extends in place through exact
container removal plus redo SETs of the header; and a growing request
whose right neighbor is too small returns ENOMEM with no action at all
— in particular prealloc never allocates a new block, copies, or frees
the old one. -/
theorem c7_prealloc_construct_policy {V : Type} (env : prealloc_env V)
    (v : V) (size : Nat)
    (hlane : env.lane_hold = none) (hlock : env.lock_err = none) :
    (size ≤ env.alloc_size → prealloc_construct env v size = (0, v, [])) ∧
    (¬ size ≤ env.alloc_size → ∀ next, env.adjacent = .ok next →
      (next.size_idx <
          bucket_calc_units env.chunk_bucket (size - env.alloc_size) →
        prealloc_construct env v size = (ENOMEM, v, [])) ∧
      (¬ next.size_idx <
          bucket_calc_units env.chunk_bucket (size - env.alloc_size) →
        ∀ v1, env.get_exact v next
            (bucket_calc_units env.chunk_bucket (size - env.alloc_size)) =
            .ok v1 →
        prealloc_construct env v size =
          (0, v1,
            [.remove_exact next
              (bucket_calc_units env.chunk_bucket (size - env.alloc_size)),
             .redo_set_alloc_size
              (bucket_calc_units env.chunk_bucket size *
                env.chunk_bucket.unit_size),
             .redo_set_header env.coalesce_hdr env.coalesce_result,
             .redo_process]))) := by
  constructor
  · intro hle
    rw [prealloc_construct, if_pos hle]
  · intro hgt next hadj
    constructor
    · intro hsmall
      rw [prealloc_construct, if_neg hgt, hlane, hlock, hadj]
      simp only [if_pos hsmall]
    · intro hbig v1 hexact
      rw [prealloc_construct, if_neg hgt, hlane, hlock, hadj]
      simp only [if_neg hbig, hexact]

/-- Collaborator instantiation for the realloc counterexample and
witness: a 128-byte-unit bucket, current allocation 128 bytes, a free
right neighbor of one unit, and a heap whose containers hold plenty of
free blocks (the get_exact removal succeeds). -/
def c7_env : prealloc_env Unit :=
  ⟨none, ⟨bucket_type.run, 128⟩, 128, none, .ok ⟨0, 0, 1, 1⟩,
    fun v _ _ => .ok v, 4096, 77⟩

/-- C7 counterexample: growing the 128-byte allocation to 512 bytes
needs three more units but the free right neighbor has only one, so
prealloc_construct returns ENOMEM with an empty action trace — it does
not allocate a new block, copy min(old, new) bytes and free the old
block, although the heap of the instantiation has free blocks to
offer. -/
theorem c7_prealloc_construct_counterexample :
    (128 : Nat) < 512 ∧
    c7_env.adjacent = .ok ⟨0, 0, 1, 1⟩ ∧
    (1 : Nat) < bucket_calc_units c7_env.chunk_bucket (512 - 128) ∧
    prealloc_construct c7_env () 512 = (ENOMEM, (), []) := by
  refine ⟨by decide, rfl, by decide, rfl⟩

/-- Concrete instance of the amended realloc policy: growing the same
allocation to 256 bytes consumes exactly the one-unit neighbor in
place. -/
theorem c7_prealloc_construct_policy_witness :
    c7_env.lane_hold = none ∧ c7_env.lock_err = none ∧
    ((256 : Nat) ≤ c7_env.alloc_size →
      prealloc_construct c7_env () 256 = (0, (), [])) ∧
    (¬ (256 : Nat) ≤ c7_env.alloc_size →
      ∀ next, c7_env.adjacent = .ok next →
      (next.size_idx <
          bucket_calc_units c7_env.chunk_bucket (256 - c7_env.alloc_size) →
        prealloc_construct c7_env () 256 = (ENOMEM, (), [])) ∧
      (¬ next.size_idx <
          bucket_calc_units c7_env.chunk_bucket (256 - c7_env.alloc_size) →
        ∀ v1 : Unit, c7_env.get_exact () next
            (bucket_calc_units c7_env.chunk_bucket (256 - c7_env.alloc_size)) =
            .ok v1 →
        prealloc_construct c7_env () 256 =
          (0, v1,
            [.remove_exact next
              (bucket_calc_units c7_env.chunk_bucket (256 - c7_env.alloc_size)),
             .redo_set_alloc_size
              (bucket_calc_units c7_env.chunk_bucket 256 *
                c7_env.chunk_bucket.unit_size),
             .redo_set_header c7_env.coalesce_hdr c7_env.coalesce_result,
             .redo_process]))) :=
  ⟨rfl, rfl, (c7_prealloc_construct_policy c7_env () 256 rfl rfl).1,
    (c7_prealloc_construct_policy c7_env () 256 rfl rfl).2⟩

/-- Collaborators of pfree: lane and run-lock outcomes, the block data
read through the off slot, whether the block is currently allocated
(consulted only by the DEBUG assertion), and the heap_free_block
outputs. -/
structure pfree_env where
  lane_hold : Option Nat
  lock_err : Option Nat
  is_allocated : Bool
  free_hdr : Nat
  free_op_result : Nat
  free_res_block : memory_block
deriving DecidableEq

/-- Observable operations performed by pfree. -/
inductive pfree_action where
  | redo_set_off_zero
  | redo_set_header (loc v : Nat)
  | redo_process
  | container_insert (m : memory_block)
deriving DecidableEq

/-- Embedding of pfree of pmalloc.c lines 360-429 as built in release
mode (the heap_block_is_allocated double-free check is compiled only
under DEBUG): once the lane and the run lock are held, the free is
performed unconditionally — the off slot is zeroed and the header
mutated through the redo log, and the block is reinserted into its
container. -/
def pfree (env : pfree_env) : Nat × List pfree_action :=
  match env.lane_hold with
  | some err => (err, [])
  | none =>
    match env.lock_err with
    | some err => (err, [])
    | none =>
      (0, [.redo_set_off_zero,
           .redo_set_header env.free_hdr env.free_op_result,
           .redo_process,
           .container_insert env.free_res_block])

/-- Embedding of pfree as built in DEBUG mode: after taking the lane,
the assertion on heap_block_is_allocated aborts the process (none) on
a double free. -/
def pfree_debug (env : pfree_env) : Option (Nat × List pfree_action) :=
  match env.lane_hold with
  | some err => some (err, [])
  | none =>
    if env.is_allocated = false then none
    else some (pfree env)

/-- C8 amended: release builds do not detect a double free.  Whenever
the lane and the run lock are acquired, pfree returns 0 and emits and
processes a redo log (zeroed pointer slot, header operation) whatever
the allocation state of the block — the result does not depend on
heap_block_is_allocated at all; only the DEBUG build aborts on an
already-free block.  No EINVAL is ever produced by pfree itself. -/
theorem c8_pfree_release_no_detection (env : pfree_env)
    (hlane : env.lane_hold = none) (hlock : env.lock_err = none) :
    (pfree env).1 = 0 ∧
    (pfree env).2 = [.redo_set_off_zero,
        .redo_set_header env.free_hdr env.free_op_result,
        .redo_process, .container_insert env.free_res_block] ∧
    (∀ bval, pfree { env with is_allocated := bval } = pfree env) ∧
    (env.is_allocated = false → pfree_debug env = none) := by
  refine ⟨?_, ?_, ?_, ?_⟩
  · rw [pfree, hlane, hlock]
  · rw [pfree, hlane, hlock]
  · intro bval
    rw [pfree, pfree, hlane, hlock]
  · intro hfree
    rw [pfree_debug, hlane, hfree]
    rfl

/-- The double-free state: the lane and lock succeed and the block
behind the re-supplied offset is already free. -/
def c8_env : pfree_env := ⟨none, none, false, 4096, 77, ⟨0, 0, 0, 1⟩⟩

/-- C8 counterexample: on the second free of the same re-supplied
offset (the block is no longer allocated), the release-build pfree does
not return EINVAL — it returns 0 and emits and processes a redo log;
the DEBUG build aborts instead. -/
theorem c8_pfree_double_free_counterexample :
    c8_env.is_allocated = false ∧
    (pfree c8_env).1 = 0 ∧
    ¬ (pfree c8_env).1 = EINVAL ∧
    pfree_action.redo_process ∈ (pfree c8_env).2 ∧
    pfree_debug c8_env = none := by
  refine ⟨by decide, by decide, by decide, by decide, by decide⟩

/-- Concrete instance of the amended double-free behavior. -/
theorem c8_pfree_release_no_detection_witness :
    c8_env.lane_hold = none ∧
    ((pfree c8_env).1 = 0 ∧
    (pfree c8_env).2 = [.redo_set_off_zero,
        .redo_set_header c8_env.free_hdr c8_env.free_op_result,
        .redo_process, .container_insert c8_env.free_res_block] ∧
    (∀ bval, pfree { c8_env with is_allocated := bval } = pfree c8_env) ∧
    (c8_env.is_allocated = false → pfree_debug c8_env = none)) :=
  ⟨rfl, c8_pfree_release_no_detection c8_env rfl rfl⟩
